import Mathlib

/-!
# AMS5600 magnetic rotary position sensor driver (Nucleo F411RE, I2C1)

A shallow embedding of `Drivers/Platform/platform.c` (the register access
layer) and `Drivers/AMS5600_Driver/AMS5600_api.c` (the sensor operation
layer), followed by theorems about them.

Conventions of the embedding.

* Machine integers are natural numbers; every store into a `uint8_t` is an
  explicit `% 256`, every store into a `uint16_t` an explicit `% 65536`.
  `int` is 32 bits wide on the Cortex-M4 target, so a `uint16_t` operand is
  promoted to a non-negative `int` before a comparison.
* The vendor HAL (`HAL_I2C_Master_Transmit`, `HAL_I2C_Master_Receive`) is an
  external collaborator.  It is a parameter of every driver function: a
  record of two state transformers over an arbitrary bus state `σ`.
  The handle `hi2c1` of the C code is that record together with the state.
* An out-parameter (`uint8_t *value`, `int *retVal`) is returned in the field
  `value` of the result, next to the returned `status` and the bus state.
* `PRINT_MESG_DBG` (from `debug.h`) is a debug print; it performs no bus
  transfer and is dropped.
-/

namespace AMS5600

/-! ## The vendor HAL as a parameter -/

/-- The two blocking I2C master primitives of the vendor HAL over a bus state `σ`.
`HAL_I2C_Master_Transmit dev pData Timeout` sends the bytes `pData` (its length is the
`Size` argument of the C call) and returns the HAL status.
`HAL_I2C_Master_Receive dev Size Timeout` returns the HAL status and the content of the
receive buffer after the call. -/
structure I2C_HandleTypeDef (σ : Type) where
  HAL_I2C_Master_Transmit : Nat → List Nat → Nat → σ → Nat × σ
  HAL_I2C_Master_Receive : Nat → Nat → Nat → σ → (Nat × List Nat) × σ

/-- Result of a driver call: returned status byte, out-parameter, bus state afterwards. -/
structure Ret (σ : Type) (α : Type) where
  status : Nat
  value : α
  bus : σ

/-! ## platform.c : register access layer -/

/-- C signature `uint8_t AMS5600_RdByte(uint16_t dev, uint8_t RegisterAddr, uint8_t *value)` -/
def AMS5600_RdByte {σ : Type} (hi2c1 : I2C_HandleTypeDef σ) (dev RegisterAddr : Nat) (w : σ) :
    Ret σ Nat :=
  let data_write := [RegisterAddr &&& 0xFF]
  let t := hi2c1.HAL_I2C_Master_Transmit dev data_write 100 w
  let status := t.1 % 256
  let r := hi2c1.HAL_I2C_Master_Receive dev 1 100 t.2
  let status := (status ||| r.1.1) % 256
  let data_read := r.1.2
  ⟨status, data_read.getD 0 0 % 256, r.2⟩

/-- C signature `uint8_t AMS5600_RdWord(uint16_t dev, uint8_t RegisterAddr, uint16_t *value)` -/
def AMS5600_RdWord {σ : Type} (hi2c1 : I2C_HandleTypeDef σ) (dev RegisterAddr : Nat) (w : σ) :
    Ret σ Nat :=
  let data_write := [RegisterAddr &&& 0xFF]
  let t := hi2c1.HAL_I2C_Master_Transmit dev data_write 100 w
  let status := t.1 % 256
  let r := hi2c1.HAL_I2C_Master_Receive dev 2 100 t.2
  let status := (status ||| r.1.1) % 256
  let data_read := r.1.2
  ⟨status, (((data_read.getD 0 0 % 256) <<< 8) ||| (data_read.getD 1 0 % 256)) % 65536, r.2⟩

/-- C signature `uint8_t AMS5600_WrByte(uint16_t dev, uint8_t RegisterAddr, uint8_t value)` -/
def AMS5600_WrByte {σ : Type} (hi2c1 : I2C_HandleTypeDef σ) (dev RegisterAddr value : Nat)
    (w : σ) : Ret σ Unit :=
  let data_write := [RegisterAddr &&& 0xFF, value &&& 0xFF]
  let t := hi2c1.HAL_I2C_Master_Transmit dev data_write 100 w
  let status := t.1 % 256
  ⟨status, (), t.2⟩

/-- C signature `uint8_t AMS5600_WrWord(uint16_t dev, uint8_t RegisterAddr, uint16_t value)` -/
def AMS5600_WrWord {σ : Type} (hi2c1 : I2C_HandleTypeDef σ) (dev RegisterAddr value : Nat)
    (w : σ) : Ret σ Unit :=
  let data_write := [RegisterAddr &&& 0xFF, (value >>> 8) &&& 0xFF, value &&& 0xFF]
  let t := hi2c1.HAL_I2C_Master_Transmit dev data_write 100 w
  let status := t.1 % 256
  ⟨status, (), t.2⟩

/-! ## AMS5600_api.h : constants -/

/-- C declaration `static const uint8_t _ams5600_Address = (0x36 << 1);` -/
def _ams5600_Address : Nat := (0x36 <<< 1) % 256

def _addr_status : Nat := 0x0b
def _addr_agc : Nat := 0x1a
def _addr_burn : Nat := 0xff
def _addr_zmco : Nat := 0x00
def _addr_zpos : Nat := 0x01
def _addr_mpos : Nat := 0x03
def _addr_mang : Nat := 0x05
def _addr_conf : Nat := 0x07
def _addr_raw_angle : Nat := 0x0c
def _addr_angle : Nat := 0x0e
def _addr_magnitude : Nat := 0x1b

def AMS5600_BURN_ANGLE : Nat := 0x80
def AMS5600_BURN_SETTING : Nat := 0x40

/-! ## IEEE-754 binary64 arithmetic used by `_maxAngle * 0.087 < 18`

All quantities are non-negative and scaled by `2 ^ 55`: the natural number `n`
stands for the real `n / 2 ^ 55`.  The operands are far from the subnormal and
overflow ranges, so a binary64 product is the exact product rounded to 53
significant bits, ties to even. -/

/-- The binary64 literal `0.087` is `0x1.645a1cac08312p-4`, that is
`3134505340649865 / 2 ^ 55`. -/
def dbl_0_087 : Nat := 3134505340649865

/-- The binary64 literal `18` scaled by `2 ^ 55` (exactly representable). -/
def dbl_18 : Nat := 18 * 2 ^ 55

/-- Number of binary digits of `n` by repeated halving, at most `fuel` of them. -/
def bitLengthAux : Nat → Nat → Nat
  | 0, _ => 0
  | fuel + 1, n => if n = 0 then 0 else bitLengthAux fuel (n / 2) + 1

/-- Number of binary digits of `n`; `0` has none. -/
def bitLength (n : Nat) : Nat := bitLengthAux n n

/-- Round a scaled value to 53 significant bits, ties to even. -/
def roundToDouble (n : Nat) : Nat :=
  let bits := bitLength n
  if bits ≤ 53 then n
  else
    let shift := bits - 53
    let q := n >>> shift
    let r := n % 2 ^ shift
    let half := 2 ^ (shift - 1)
    let q := if half < r ∨ (r = half ∧ q % 2 = 1) then q + 1 else q
    q <<< shift

/-- The C expression `_maxAngle * 0.087 < 18`: `_maxAngle` (a `uint16_t`) is converted to
binary64 exactly, multiplied by the literal `0.087` with one rounding, and compared with `18`. -/
def maxAngle_below_18_degrees (_maxAngle : Nat) : Bool :=
  decide (roundToDouble (_maxAngle * dbl_0_087) < dbl_18)

/-! ## AMS5600_api.c : sensor operation layer -/

section api
variable {σ : Type} (hi2c1 : I2C_HandleTypeDef σ)

/-- C signature `uint8_t AMS5600_setOutPut(uint8_t mode)` -/
def AMS5600_setOutPut (mode : Nat) (w : σ) : Ret σ Unit :=
  let _conf_lo := (_addr_conf + 1) % 65536
  let r := AMS5600_RdByte hi2c1 _ams5600_Address (_conf_lo % 256) w
  let status := r.status
  let config_status := r.value
  let config_status := (config_status &&& 0b11001111) % 256
  let config_status :=
    if mode = 0 then (config_status ||| 0b100000) % 256
    else if mode = 2 then (config_status ||| 0b010000) % 256
    else config_status
  let t := AMS5600_WrByte hi2c1 _ams5600_Address (_conf_lo % 256) config_status r.bus
  let status := (status ||| t.status) % 256
  ⟨status, (), t.bus⟩

/-- C signature `uint8_t AMS5600_getAddress()` -/
def AMS5600_getAddress : Nat := _ams5600_Address

/-- C signature `uint8_t AMS5600_getMaxAngle(uint16_t *max_angle_register)` -/
def AMS5600_getMaxAngle (w : σ) : Ret σ Nat :=
  AMS5600_RdWord hi2c1 _ams5600_Address _addr_mang w

/-- C signature `uint8_t AMS5600_getStartPosition(uint16_t *start_position_register)` -/
def AMS5600_getStartPosition (w : σ) : Ret σ Nat :=
  AMS5600_RdWord hi2c1 _ams5600_Address _addr_zpos w

/-- C signature `uint8_t AMS5600_getEndPosition(uint16_t *end_position_register)` -/
def AMS5600_getEndPosition (w : σ) : Ret σ Nat :=
  AMS5600_RdWord hi2c1 _ams5600_Address _addr_mpos w

/-- C signature `uint8_t AMS5600_getRawAngle(uint16_t *rawAngle)` -/
def AMS5600_getRawAngle (w : σ) : Ret σ Nat :=
  AMS5600_RdWord hi2c1 _ams5600_Address _addr_raw_angle w

/-- C signature `uint8_t AMS5600_getScaledAngle(uint16_t *scaledAngle)` -/
def AMS5600_getScaledAngle (w : σ) : Ret σ Nat :=
  AMS5600_RdWord hi2c1 _ams5600_Address _addr_angle w

/-- C signature `uint8_t AMS5600_setMaxAngle(uint16_t newMaxAngle, uint16_t *max_angle_register)`.
The test `newMaxAngle == -1` compares the promoted `int` value of the `uint16_t` with `-1`. -/
def AMS5600_setMaxAngle (newMaxAngle : Nat) (w : σ) : Ret σ Nat :=
  let status := 0
  let g : Ret σ Nat :=
    if (newMaxAngle : Int) = -1 then
      let r := AMS5600_getRawAngle hi2c1 w
      ⟨(status ||| r.status) % 256, r.value, r.bus⟩
    else
      ⟨status, newMaxAngle, w⟩
  let status := g.status
  let maxAngle := g.value
  let t := AMS5600_WrWord hi2c1 _ams5600_Address _addr_mang maxAngle g.bus
  let status := (status ||| t.status) % 256
  let r := AMS5600_RdWord hi2c1 _ams5600_Address _addr_mang t.bus
  let status := (status ||| r.status) % 256
  ⟨status, r.value, r.bus⟩

/-- C signature `uint8_t AMS5600_setStartPosition(uint16_t startAngle, uint16_t *zPosition)`.
The test `startAngle == -1` compares the promoted `int` value of the `uint16_t` with `-1`. -/
def AMS5600_setStartPosition (startAngle : Nat) (w : σ) : Ret σ Nat :=
  let status := 0
  let g : Ret σ Nat :=
    if (startAngle : Int) = -1 then
      let r := AMS5600_getRawAngle hi2c1 w
      ⟨r.status, r.value, r.bus⟩
    else
      ⟨status, startAngle, w⟩
  let status := g.status
  let rawStartAngle := g.value
  let t := AMS5600_WrWord hi2c1 _ams5600_Address _addr_zpos rawStartAngle g.bus
  let status := (status ||| t.status) % 256
  let r := AMS5600_RdWord hi2c1 _ams5600_Address _addr_zpos t.bus
  let status := (status ||| r.status) % 256
  ⟨status, r.value, r.bus⟩

/-- C signature `uint8_t AMS5600_setEndPosition(uint16_t rawEndAngle, uint16_t *mPosition)` -/
def AMS5600_setEndPosition (rawEndAngle : Nat) (w : σ) : Ret σ Nat :=
  let status := 0
  let t := AMS5600_WrWord hi2c1 _ams5600_Address _addr_mpos rawEndAngle w
  let status := (status ||| t.status) % 256
  let r := AMS5600_RdWord hi2c1 _ams5600_Address _addr_mpos t.bus
  let status := (status ||| r.status) % 256
  ⟨status, r.value, r.bus⟩

/-- C signature `uint8_t AMS5600_detectMagnet(uint8_t *magStatus)` -/
def AMS5600_detectMagnet (w : σ) : Ret σ Nat :=
  let r := AMS5600_RdByte hi2c1 _ams5600_Address _addr_status w
  let status := r.status
  let magStatus := r.value
  let magStatus := if magStatus &&& 0x20 ≠ 0 then 1 else 0
  ⟨status, magStatus, r.bus⟩

/-- C signature `uint8_t AMS5600_getMagnetStrength(uint8_t *magnetStrength)` -/
def AMS5600_getMagnetStrength (w : σ) : Ret σ Nat :=
  let magnetStrength := 0
  let r := AMS5600_RdByte hi2c1 _ams5600_Address _addr_status w
  let status := r.status
  let magStatus := r.value
  let magnetStrength :=
    if magStatus &&& 0x20 ≠ 0 then
      let magnetStrength := 2
      if magStatus &&& 0x10 ≠ 0 then 1
      else if magStatus &&& 0x08 ≠ 0 then 3
      else magnetStrength
    else magnetStrength
  ⟨status, magnetStrength, r.bus⟩

/-- C signature `uint8_t AMS5600_getAgc(uint8_t *AGC_register)` -/
def AMS5600_getAgc (w : σ) : Ret σ Nat :=
  AMS5600_RdByte hi2c1 _ams5600_Address _addr_agc w

/-- C signature `uint8_t AMS5600_getMagnitude(uint16_t *magnitude_register)` -/
def AMS5600_getMagnitude (w : σ) : Ret σ Nat :=
  AMS5600_RdWord hi2c1 _ams5600_Address _addr_magnitude w

/-- C signature `uint8_t AMS5600_getConf(uint16_t *conf_register)` -/
def AMS5600_getConf (w : σ) : Ret σ Nat :=
  AMS5600_RdWord hi2c1 _ams5600_Address _addr_conf w

/-- C signature `uint8_t AMS5600_setConf(uint16_t _conf)` -/
def AMS5600_setConf (_conf : Nat) (w : σ) : Ret σ Unit :=
  AMS5600_WrWord hi2c1 _ams5600_Address _addr_conf _conf w

/-- C signature `uint8_t AMS5600_getBurnCount(uint8_t *zmco_register)` -/
def AMS5600_getBurnCount (w : σ) : Ret σ Nat :=
  AMS5600_RdByte hi2c1 _ams5600_Address _addr_zmco w

/-- C signature `uint8_t AMS5600_burnAngle(int *retVal)`.  In the innermost `else` branch the
source only prints a debug message: the write of `AMS5600_BURN_ANGLE` to `_addr_burn` is
commented out. -/
def AMS5600_burnAngle (w : σ) : Ret σ Int :=
  let r1 := AMS5600_getStartPosition hi2c1 w
  let _zPosition := r1.value
  let status := r1.status
  let r2 := AMS5600_getEndPosition hi2c1 r1.bus
  let _mPosition := r2.value
  let status := (status ||| r2.status) % 256
  let r3 := AMS5600_getMaxAngle hi2c1 r2.bus
  let status := (status ||| r3.status) % 256
  let retVal : Int := 1
  let r4 := AMS5600_detectMagnet hi2c1 r3.bus
  let magStatus := r4.value
  let status := (status ||| r4.status) % 256
  if magStatus = 1 then
    let r5 := AMS5600_getBurnCount hi2c1 r4.bus
    let zmco_register := r5.value
    let status := (status ||| r5.status) % 256
    if zmco_register < 3 then
      if _zPosition = 0 ∧ _mPosition = 0 then
        ⟨status, -3, r5.bus⟩
      else
        ⟨status, retVal, r5.bus⟩
    else
      ⟨status, -2, r5.bus⟩
  else
    ⟨status, -1, r4.bus⟩

/-- C signature `uint8_t AMS5600_burnMaxAngleAndConfig(int *retVal)`.  In the inner `else`
branch the source only prints a debug message: the write of `AMS5600_BURN_SETTING` to
`_addr_burn` is commented out. -/
def AMS5600_burnMaxAngleAndConfig (w : σ) : Ret σ Int :=
  let r1 := AMS5600_getMaxAngle hi2c1 w
  let _maxAngle := r1.value
  let status := r1.status
  let retVal : Int := 1
  let r2 := AMS5600_getBurnCount hi2c1 r1.bus
  let zmco_register := r2.value
  let status := (status ||| r2.status) % 256
  if zmco_register = 0 then
    if maxAngle_below_18_degrees _maxAngle then
      ⟨status, -2, r2.bus⟩
    else
      ⟨status, retVal, r2.bus⟩
  else
    ⟨status, -1, r2.bus⟩

end api

/-! ## Observing the bus: transfer logs

`logged hal` behaves as `hal` and appends every transfer, with the status it
returned, to a log kept next to the bus state.  Statements about which
transfers an operation performs are statements about this log. -/

/-- One call of a vendor HAL primitive, with the status it returned. -/
inductive Transfer where
  | transmit (dev : Nat) (pData : List Nat) (timeout : Nat) (status : Nat)
  | receive (dev : Nat) (size : Nat) (timeout : Nat) (status : Nat)
deriving DecidableEq, Repr

/-- HAL status returned by a logged transfer. -/
def Transfer.status : Transfer → Nat
  | .transmit _ _ _ s => s
  | .receive _ _ _ s => s

/-- Status byte the driver sees for a transfer: the HAL status stored into a `uint8_t`. -/
def Transfer.statusByte (t : Transfer) : Nat := t.status % 256

/-- A register-select transmit: exactly one byte, the register address. -/
def Transfer.isSelect : Transfer → Bool
  | .transmit _ pData _ _ => decide (pData.length = 1)
  | .receive _ _ _ _ => false

/-- A write transfer: a transmit carrying data bytes after the register address. -/
def Transfer.isWrite : Transfer → Bool
  | .transmit _ pData _ _ => decide (2 ≤ pData.length)
  | .receive _ _ _ _ => false

/-- A transmit whose first byte, the register address, is `reg`. -/
def Transfer.addresses (reg : Nat) : Transfer → Bool
  | .transmit _ pData _ _ => decide (pData.head? = some reg)
  | .receive _ _ _ _ => false

/-- Device address a transfer is sent to. -/
def Transfer.dev : Transfer → Nat
  | .transmit dev _ _ _ => dev
  | .receive dev _ _ _ => dev

/-- What the driver asked of the HAL in one call: the arguments without the status. -/
inductive Request where
  | transmit (dev : Nat) (pData : List Nat) (timeout : Nat)
  | receive (dev : Nat) (size : Nat) (timeout : Nat)
deriving DecidableEq, Repr

/-- Request of a logged transfer. -/
def Transfer.request : Transfer → Request
  | .transmit dev pData timeout _ => .transmit dev pData timeout
  | .receive dev size timeout _ => .receive dev size timeout

/-- The HAL `hal` instrumented with a log of the transfers performed. -/
def logged {σ : Type} (hal : I2C_HandleTypeDef σ) : I2C_HandleTypeDef (σ × List Transfer) where
  HAL_I2C_Master_Transmit := fun dev pData timeout w =>
    let t := hal.HAL_I2C_Master_Transmit dev pData timeout w.1
    (t.1, (t.2, w.2 ++ [Transfer.transmit dev pData timeout t.1]))
  HAL_I2C_Master_Receive := fun dev size timeout w =>
    let r := hal.HAL_I2C_Master_Receive dev size timeout w.1
    (r.1, (r.2, w.2 ++ [Transfer.receive dev size timeout r.1.1]))

/-- Bitwise OR of the status bytes of a list of transfers. -/
def orStatus (l : List Transfer) : Nat :=
  l.foldl (fun acc t => acc ||| t.statusByte) 0

/-! ## A mocked device

The device keeps a register file and an address pointer.  A transmit sets the
pointer to its first byte and stores every further byte at the pointer, which
then advances (modulo 256); a receive returns the registers from the pointer
on, advancing it likewise.  The device address and the timeout are ignored.
The status of each transfer is taken from a script: the n-th transfer returns
the n-th status of the script, and status 0 once the script is used up. -/

/-- State of the mocked device. -/
structure Mock where
  regs : Nat → Nat
  ptr : Nat
  script : List Nat

/-- Store bytes at the address pointer, advancing it after each byte. -/
def Mock.store : List Nat → Mock → Mock
  | [], m => m
  | b :: bs, m =>
    Mock.store bs { m with regs := fun a => if a = m.ptr then b else m.regs a,
                           ptr := (m.ptr + 1) % 256 }

/-- Read `n` bytes from the address pointer on, advancing it after each byte. -/
def Mock.load : Nat → Mock → List Nat × Mock
  | 0, m => ([], m)
  | n + 1, m =>
    let rest := Mock.load n { m with ptr := (m.ptr + 1) % 256 }
    (m.regs m.ptr :: rest.1, rest.2)

/-- The mocked device behind the vendor HAL interface. -/
def mockHAL : I2C_HandleTypeDef Mock where
  HAL_I2C_Master_Transmit := fun _dev pData _timeout m =>
    let m1 := { m with script := m.script.tail }
    match pData with
    | [] => (m.script.headD 0, m1)
    | reg :: bytes => (m.script.headD 0, Mock.store bytes { m1 with ptr := reg })
  HAL_I2C_Master_Receive := fun _dev size _timeout m =>
    let m1 := { m with script := m.script.tail }
    let l := Mock.load size m1
    ((m.script.headD 0, l.1), l.2)

/-- A mocked device with the given register content, all of whose transfers succeed. -/
def Mock.ok (regs : Nat → Nat) : Mock := ⟨regs, 0, []⟩

/-- Register file given by a list of (address, byte) pairs, 0 elsewhere. -/
def regsOf (l : List (Nat × Nat)) : Nat → Nat :=
  fun a => ((l.find? (fun p => p.1 == a)).map Prod.snd).getD 0

/-- Starting from an empty log, the log in the final bus state lists the transfers the
operation performed.  `StatusSurfaces r` says that the status returned in `r` is the bitwise
OR of the status bytes of those transfers, and that it is 0 exactly when every one of them
returned status byte 0. -/
def StatusSurfaces {σ α : Type} (r : Ret (σ × List Transfer) α) : Prop :=
  r.status = orStatus r.bus.2 ∧ (r.status = 0 ↔ ∀ e ∈ r.bus.2, e.statusByte = 0)

/-- A log made only of register-select transmits (one byte), each followed by a receive. -/
def selectReceivePairs : List Transfer → Bool
  | [] => true
  | Transfer.transmit _ pData _ _ :: Transfer.receive _ _ _ _ :: rest =>
    decide (pData.length = 1) && selectReceivePairs rest
  | _ => false

/-! # Theorems -/

/-! ## Arithmetic helpers -/

theorem or_mod_256 (a b : Nat) : (a ||| b) % 256 = a % 256 ||| b % 256 := by
  apply Nat.eq_of_testBit_eq
  intro i
  have h : (256 : Nat) = 2 ^ 8 := by norm_num
  simp only [h, Nat.testBit_mod_two_pow, Nat.testBit_or]
  cases decide (i < 8) <;> simp

theorem or_eq_zero (a b : Nat) : a ||| b = 0 ↔ a = 0 ∧ b = 0 := by
  constructor
  · intro h
    have key : ∀ i, (a.testBit i || b.testBit i) = false := by
      intro i
      rw [← Nat.testBit_or, h, Nat.zero_testBit]
    constructor
    · apply Nat.eq_of_testBit_eq
      intro i
      have := key i
      rw [Nat.zero_testBit]
      cases h1 : a.testBit i <;> simp_all
    · apply Nat.eq_of_testBit_eq
      intro i
      have := key i
      rw [Nat.zero_testBit]
      cases h1 : b.testBit i <;> simp_all
  · rintro ⟨rfl, rfl⟩
    rfl

theorem mask_of_mask (s m k : Nat) (h : m &&& k = k) : (s &&& m) &&& k = s &&& k := by
  rw [Nat.and_assoc, h]

theorem and_255 (x : Nat) : x &&& 0xFF = x % 256 :=
  Nat.and_pow_two_sub_one_eq_mod x 8

theorem word_of_bytes (a b : Nat) (ha : a < 256) (hb : b < 256) :
    ((a % 256) <<< 8 ||| (b % 256)) % 65536 = a * 256 + b := by
  rw [Nat.mod_eq_of_lt ha, Nat.mod_eq_of_lt hb, Nat.shiftLeft_eq]
  have h := Nat.mul_add_lt_is_or (show b < 2 ^ 8 from hb) a
  have e : a * 2 ^ 8 = 2 ^ 8 * a := Nat.mul_comm _ _
  rw [e, ← h]
  omega

theorem word_split (v : Nat) (hv : v < 65536) :
    (v >>> 8) &&& 0xFF = v >>> 8 ∧ v >>> 8 < 256 ∧ v &&& 0xFF < 256 ∧
    (v >>> 8) * 256 + (v &&& 0xFF) = v := by
  rw [and_255, and_255, Nat.shiftRight_eq_div_pow]
  norm_num
  omega

theorem sentinel_test (n : Nat) : ((n : Int) = -1) = False := by
  simp only [eq_iff_iff, iff_false]
  omega

set_option maxRecDepth 100000 in
theorem outPut_byte : ∀ c < 256,
    ((c &&& 0b11001111) % 256 ||| 0b100000) % 256 &&& 0xFF = (c &&& 0xCF) ||| 0x20 ∧
    ((c &&& 0b11001111) % 256 ||| 0b010000) % 256 &&& 0xFF = (c &&& 0xCF) ||| 0x10 ∧
    (c &&& 0b11001111) % 256 &&& 0xFF = (c &&& 0xCF) ||| 0x00 ∧
    ((c &&& 0xCF) ||| 0x20) &&& 0xCF = c &&& 0xCF ∧ ((c &&& 0xCF) ||| 0x20) &&& 0x30 = 0x20 ∧
    ((c &&& 0xCF) ||| 0x10) &&& 0xCF = c &&& 0xCF ∧ ((c &&& 0xCF) ||| 0x10) &&& 0x30 = 0x10 ∧
    ((c &&& 0xCF) ||| 0x00) &&& 0xCF = c &&& 0xCF ∧ ((c &&& 0xCF) ||| 0x00) &&& 0x30 = 0x00 := by
  decide

/-! ## The binary64 comparison `_maxAngle * 0.087 < 18` -/

theorem bitLengthAux_zero (fuel : Nat) : bitLengthAux fuel 0 = 0 := by
  cases fuel <;> simp [bitLengthAux]

theorem bitLengthAux_spec (fuel n : Nat) (hf : n ≤ fuel) (hn : n ≠ 0) :
    2 ^ (bitLengthAux fuel n - 1) ≤ n ∧ n < 2 ^ bitLengthAux fuel n := by
  induction fuel generalizing n with
  | zero => omega
  | succ fuel ih =>
    unfold bitLengthAux
    rw [if_neg hn]
    by_cases h2 : n / 2 = 0
    · rw [h2, bitLengthAux_zero]
      norm_num
      omega
    · obtain ⟨l, u⟩ := ih (n / 2) (by omega) h2
      have hk : bitLengthAux fuel (n / 2) ≠ 0 := by
        intro h0
        rw [h0] at u
        norm_num at u
        exact h2 u
      obtain ⟨k, hk2⟩ := Nat.exists_eq_succ_of_ne_zero hk
      rw [hk2] at l u ⊢
      simp only [Nat.succ_eq_add_one, Nat.add_sub_cancel] at l u ⊢
      rw [Nat.pow_succ] at u ⊢
      rw [Nat.pow_succ]
      omega

/-- The number `bitLength n` is the number of significant binary digits of a positive `n`. -/
theorem bitLength_spec (n : Nat) (hn : n ≠ 0) :
    2 ^ (bitLength n - 1) ≤ n ∧ n < 2 ^ bitLength n :=
  bitLengthAux_spec n n (Nat.le_refl n) hn

theorem bitLengthAux_le (fuel n k : Nat) (h : n < 2 ^ k) : bitLengthAux fuel n ≤ k := by
  induction fuel generalizing n k with
  | zero => simp [bitLengthAux]
  | succ fuel ih =>
    unfold bitLengthAux
    split_ifs with h0
    · exact Nat.zero_le _
    · cases k with
      | zero => simp at h; exact absurd h h0
      | succ k =>
        have h2 : n / 2 < 2 ^ k := by
          rw [Nat.pow_succ] at h
          exact Nat.div_lt_of_lt_mul (by omega)
        have := ih (n / 2) k h2
        omega

theorem roundToDouble_near (n : Nat) (hn : n < 2 ^ 68) :
    roundToDouble n ≤ n + 32768 ∧ n ≤ roundToDouble n + 32768 := by
  unfold roundToDouble
  simp only []
  split_ifs with hb hr
  · omega
  · have hs : bitLength n - 53 ≤ 15 := by
      have := bitLengthAux_le n n 68 hn
      unfold bitLength
      omega
    have hP : 2 ^ (bitLength n - 53) ≤ 2 ^ 15 := Nat.pow_le_pow_right (by norm_num) hs
    have hpos : 0 < 2 ^ (bitLength n - 53) := Nat.pow_pos (by norm_num)
    rw [Nat.shiftRight_eq_div_pow, Nat.shiftLeft_eq]
    have h1 := Nat.div_add_mod n (2 ^ (bitLength n - 53))
    have h2 := Nat.mod_lt n hpos
    generalize 2 ^ (bitLength n - 53) = P at *
    generalize n / P = q at *
    have e : (q + 1) * P = P * q + P := by ring
    rw [e]
    norm_num at hP
    omega
  · have hs : bitLength n - 53 ≤ 15 := by
      have := bitLengthAux_le n n 68 hn
      unfold bitLength
      omega
    have hP : 2 ^ (bitLength n - 53) ≤ 2 ^ 15 := Nat.pow_le_pow_right (by norm_num) hs
    have hpos : 0 < 2 ^ (bitLength n - 53) := Nat.pow_pos (by norm_num)
    rw [Nat.shiftRight_eq_div_pow, Nat.shiftLeft_eq]
    have h1 := Nat.div_add_mod n (2 ^ (bitLength n - 53))
    have h2 := Nat.mod_lt n hpos
    generalize 2 ^ (bitLength n - 53) = P at *
    generalize n / P = q at *
    have e : q * P = P * q := by ring
    rw [e]
    norm_num at hP
    omega

/-- For a `uint16_t` raw angle `m` the binary64 test `m * 0.087 < 18` holds exactly when
`m <= 206`. -/
theorem maxAngle_below_18_degrees_eq (m : Nat) (hm : m < 65536) :
    maxAngle_below_18_degrees m = decide (m ≤ 206) := by
  unfold maxAngle_below_18_degrees
  have h := roundToDouble_near (m * dbl_0_087) (by unfold dbl_0_087; norm_num; omega)
  unfold dbl_0_087 dbl_18 at *
  norm_num at h ⊢
  by_cases hle : m ≤ 206
  · simp only [hle, iff_true]
    omega
  · simp only [hle, iff_false]
    omega

/-- The literal `0.087` is correctly rounded: `2 * dbl_0_087` is a 53-bit significand and
`dbl_0_087 / 2 ^ 55` lies within half a unit in the last place of `87 / 1000`. -/
theorem dbl_0_087_nearest :
    2 ^ 52 ≤ 2 * dbl_0_087 ∧ 2 * dbl_0_087 < 2 ^ 53 ∧
    87 * 2 ^ 56 ≤ 1000 * (2 * dbl_0_087) + 500 ∧ 1000 * (2 * dbl_0_087) ≤ 87 * 2 ^ 56 + 500 := by
  unfold dbl_0_087
  norm_num

/-! ## Register access layer: transfer logs and statuses -/

theorem logged_RdByte {σ : Type} (hal : I2C_HandleTypeDef σ) (dev r : Nat) (w : σ)
    (l : List Transfer) :
    AMS5600_RdByte (logged hal) dev r (w, l) =
      ⟨(AMS5600_RdByte hal dev r w).status, (AMS5600_RdByte hal dev r w).value,
       ((AMS5600_RdByte hal dev r w).bus,
        l ++ [Transfer.transmit dev [r &&& 0xFF] 100
                (hal.HAL_I2C_Master_Transmit dev [r &&& 0xFF] 100 w).1,
              Transfer.receive dev 1 100
                (hal.HAL_I2C_Master_Receive dev 1 100
                  (hal.HAL_I2C_Master_Transmit dev [r &&& 0xFF] 100 w).2).1.1])⟩ := by
  simp [AMS5600_RdByte, logged]

theorem logged_RdWord {σ : Type} (hal : I2C_HandleTypeDef σ) (dev r : Nat) (w : σ)
    (l : List Transfer) :
    AMS5600_RdWord (logged hal) dev r (w, l) =
      ⟨(AMS5600_RdWord hal dev r w).status, (AMS5600_RdWord hal dev r w).value,
       ((AMS5600_RdWord hal dev r w).bus,
        l ++ [Transfer.transmit dev [r &&& 0xFF] 100
                (hal.HAL_I2C_Master_Transmit dev [r &&& 0xFF] 100 w).1,
              Transfer.receive dev 2 100
                (hal.HAL_I2C_Master_Receive dev 2 100
                  (hal.HAL_I2C_Master_Transmit dev [r &&& 0xFF] 100 w).2).1.1])⟩ := by
  simp [AMS5600_RdWord, logged]

theorem logged_WrByte {σ : Type} (hal : I2C_HandleTypeDef σ) (dev r v : Nat) (w : σ)
    (l : List Transfer) :
    AMS5600_WrByte (logged hal) dev r v (w, l) =
      ⟨(AMS5600_WrByte hal dev r v w).status, (),
       ((AMS5600_WrByte hal dev r v w).bus,
        l ++ [Transfer.transmit dev [r &&& 0xFF, v &&& 0xFF] 100
                (hal.HAL_I2C_Master_Transmit dev [r &&& 0xFF, v &&& 0xFF] 100 w).1])⟩ := by
  simp [AMS5600_WrByte, logged]

theorem logged_WrWord {σ : Type} (hal : I2C_HandleTypeDef σ) (dev r v : Nat) (w : σ)
    (l : List Transfer) :
    AMS5600_WrWord (logged hal) dev r v (w, l) =
      ⟨(AMS5600_WrWord hal dev r v w).status, (),
       ((AMS5600_WrWord hal dev r v w).bus,
        l ++ [Transfer.transmit dev [r &&& 0xFF, (v >>> 8) &&& 0xFF, v &&& 0xFF] 100
                (hal.HAL_I2C_Master_Transmit dev
                  [r &&& 0xFF, (v >>> 8) &&& 0xFF, v &&& 0xFF] 100 w).1])⟩ := by
  simp [AMS5600_WrWord, logged]

theorem RdByte_status {σ : Type} (hal : I2C_HandleTypeDef σ) (dev r : Nat) (w : σ) :
    (AMS5600_RdByte hal dev r w).status =
      (hal.HAL_I2C_Master_Transmit dev [r &&& 0xFF] 100 w).1 % 256 |||
      (hal.HAL_I2C_Master_Receive dev 1 100
        (hal.HAL_I2C_Master_Transmit dev [r &&& 0xFF] 100 w).2).1.1 % 256 := by
  simp [AMS5600_RdByte, or_mod_256]

theorem RdWord_status {σ : Type} (hal : I2C_HandleTypeDef σ) (dev r : Nat) (w : σ) :
    (AMS5600_RdWord hal dev r w).status =
      (hal.HAL_I2C_Master_Transmit dev [r &&& 0xFF] 100 w).1 % 256 |||
      (hal.HAL_I2C_Master_Receive dev 2 100
        (hal.HAL_I2C_Master_Transmit dev [r &&& 0xFF] 100 w).2).1.1 % 256 := by
  simp [AMS5600_RdWord, or_mod_256]

theorem WrByte_status {σ : Type} (hal : I2C_HandleTypeDef σ) (dev r v : Nat) (w : σ) :
    (AMS5600_WrByte hal dev r v w).status =
      (hal.HAL_I2C_Master_Transmit dev [r &&& 0xFF, v &&& 0xFF] 100 w).1 % 256 := rfl

theorem WrWord_status {σ : Type} (hal : I2C_HandleTypeDef σ) (dev r v : Nat) (w : σ) :
    (AMS5600_WrWord hal dev r v w).status =
      (hal.HAL_I2C_Master_Transmit dev
        [r &&& 0xFF, (v >>> 8) &&& 0xFF, v &&& 0xFF] 100 w).1 % 256 := rfl

theorem RdByte_value_lt {σ : Type} (hal : I2C_HandleTypeDef σ) (dev r : Nat) (w : σ) :
    (AMS5600_RdByte hal dev r w).value < 256 :=
  Nat.mod_lt _ (by norm_num)

/-! ## Accumulated status -/

theorem orStatus_nil : orStatus [] = 0 := rfl

theorem orStatus_foldl (l : List Transfer) (a : Nat) :
    l.foldl (fun acc t => acc ||| t.statusByte) a = a ||| orStatus l := by
  induction l generalizing a with
  | nil => simp [orStatus]
  | cons e l ih =>
    simp only [orStatus, List.foldl_cons, Nat.zero_or]
    rw [ih, ih e.statusByte, Nat.or_assoc]

theorem orStatus_cons (e : Transfer) (l : List Transfer) :
    orStatus (e :: l) = e.statusByte ||| orStatus l := by
  simp only [orStatus, List.foldl_cons, Nat.zero_or]
  exact orStatus_foldl l e.statusByte

theorem orStatus_eq_zero (l : List Transfer) :
    orStatus l = 0 ↔ ∀ e ∈ l, e.statusByte = 0 := by
  induction l with
  | nil => simp [orStatus]
  | cons e l ih => simp [orStatus_cons, or_eq_zero, ih]

theorem statusSurfaces_of_eq {σ α : Type} (r : Ret (σ × List Transfer) α)
    (h : r.status = orStatus r.bus.2) : StatusSurfaces r :=
  ⟨h, by rw [h]; exact orStatus_eq_zero _⟩

/-! ## The mocked device behind the register access layer -/

theorem mock_RdByte (dev r : Nat) (m : Mock) :
    AMS5600_RdByte mockHAL dev r m =
      ⟨(m.script.headD 0 % 256 ||| m.script.tail.headD 0) % 256,
       m.regs (r &&& 0xFF) % 256,
       ⟨m.regs, ((r &&& 0xFF) + 1) % 256, m.script.tail.tail⟩⟩ := rfl

theorem mock_RdWord (dev r : Nat) (m : Mock) :
    AMS5600_RdWord mockHAL dev r m =
      ⟨(m.script.headD 0 % 256 ||| m.script.tail.headD 0) % 256,
       ((m.regs (r &&& 0xFF) % 256) <<< 8 ||| m.regs (((r &&& 0xFF) + 1) % 256) % 256) % 65536,
       ⟨m.regs, (((r &&& 0xFF) + 1) % 256 + 1) % 256, m.script.tail.tail⟩⟩ := rfl

theorem mock_WrByte (dev r v : Nat) (m : Mock) :
    AMS5600_WrByte mockHAL dev r v m =
      ⟨m.script.headD 0 % 256, (),
       ⟨fun a => if a = r &&& 0xFF then v &&& 0xFF else m.regs a,
        ((r &&& 0xFF) + 1) % 256, m.script.tail⟩⟩ := rfl

theorem mock_WrWord (dev r v : Nat) (m : Mock) :
    AMS5600_WrWord mockHAL dev r v m =
      ⟨m.script.headD 0 % 256, (),
       ⟨fun a => if a = ((r &&& 0xFF) + 1) % 256 then v &&& 0xFF
                 else if a = r &&& 0xFF then (v >>> 8) &&& 0xFF else m.regs a,
        (((r &&& 0xFF) + 1) % 256 + 1) % 256, m.script.tail⟩⟩ := rfl

theorem headD_ok (l : List Nat) (h : ∀ x ∈ l, x = 0) : l.headD 0 = 0 := by
  cases l with
  | nil => rfl
  | cons a l => exact h a (List.mem_cons_self a l)

theorem tail_ok (l : List Nat) (h : ∀ x ∈ l, x = 0) : ∀ x ∈ l.tail, x = 0 :=
  fun x hx => h x (List.mem_of_mem_tail hx)

theorem regsOf_byte (l : List (Nat × Nat)) (h : ∀ p ∈ l, p.2 < 256) (a : Nat) :
    regsOf l a < 256 := by
  unfold regsOf
  cases hf : l.find? (fun p => p.1 == a) with
  | none => simp
  | some p => simpa using h p (List.mem_of_find?_eq_some hf)

/-- Word write followed by word read on the mocked device. -/
theorem mock_WrWord_RdWord (dev r v : Nat) (m : Mock) (hr : r < 256) (hv : v < 65536) :
    (AMS5600_RdWord mockHAL dev r (AMS5600_WrWord mockHAL dev r v m).bus).value = v := by
  have hr2 : r &&& 0xFF = r := by rw [and_255]; exact Nat.mod_eq_of_lt hr
  obtain ⟨h1, h2, h3, h4⟩ := word_split v hv
  have hne : r ≠ (r + 1) % 256 := by omega
  simp only [mock_WrWord, mock_RdWord, hr2, h1, if_true, if_neg hne]
  rw [word_of_bytes _ _ h2 h3, h4]

/-! ## What the sensor operations compute -/

/-- Value left in `*magnetStrength`, as a function of the status byte read. -/
theorem getMagnetStrength_value {σ : Type} (hal : I2C_HandleTypeDef σ) (w : σ) :
    (AMS5600_getMagnetStrength hal w).value =
      (let s := (AMS5600_RdByte hal _ams5600_Address _addr_status w).value
       if s &&& 0x20 ≠ 0 then (if s &&& 0x10 ≠ 0 then 1 else if s &&& 0x08 ≠ 0 then 3 else 2)
       else 0) := rfl

/-- Result code of `AMS5600_burnAngle` in terms of the values its reads deliver. -/
theorem burnAngle_value {σ : Type} (hal : I2C_HandleTypeDef σ) (w : σ) :
    (AMS5600_burnAngle hal w).value =
      (let r1 := AMS5600_getStartPosition hal w
       let r2 := AMS5600_getEndPosition hal r1.bus
       let r3 := AMS5600_getMaxAngle hal r2.bus
       let r4 := AMS5600_RdByte hal _ams5600_Address _addr_status r3.bus
       let r5 := AMS5600_getBurnCount hal r4.bus
       if r4.value &&& 0x20 = 0 then -1
       else if 3 ≤ r5.value then -2
       else if r1.value = 0 ∧ r2.value = 0 then -3
       else 1) := by
  simp only [AMS5600_burnAngle, AMS5600_detectMagnet]
  split_ifs <;> first | rfl | omega | simp_all

/-- Result code of `AMS5600_burnMaxAngleAndConfig` in terms of the values its reads deliver. -/
theorem burnMaxAngleAndConfig_value {σ : Type} (hal : I2C_HandleTypeDef σ) (w : σ) :
    (AMS5600_burnMaxAngleAndConfig hal w).value =
      (let r1 := AMS5600_getMaxAngle hal w
       let r2 := AMS5600_getBurnCount hal r1.bus
       if r2.value ≠ 0 then -1
       else if maxAngle_below_18_degrees r1.value then -2
       else 1) := by
  simp only [AMS5600_burnMaxAngleAndConfig]
  split_ifs <;> first | rfl | omega

theorem mock_burnAngle_value (regs : Nat → Nat) (ptr : Nat) (script : List Nat)
    (hbytes : ∀ a, regs a < 256) :
    (AMS5600_burnAngle mockHAL ⟨regs, ptr, script⟩).value =
      if regs 0x0b &&& 0x20 = 0 then -1
      else if 3 ≤ regs 0x00 then -2
      else if regs 0x01 * 256 + regs 0x02 = 0 ∧ regs 0x03 * 256 + regs 0x04 = 0 then -3
      else 1 := by
  rw [burnAngle_value]
  simp only [AMS5600_getStartPosition, AMS5600_getEndPosition, AMS5600_getMaxAngle,
    AMS5600_getBurnCount, mock_RdWord, mock_RdByte, _ams5600_Address, _addr_status, _addr_zpos,
    _addr_mpos, _addr_mang, _addr_zmco]
  have e1 : (0x01 &&& 0xFF : Nat) = 1 := by decide
  have e3 : (0x03 &&& 0xFF : Nat) = 3 := by decide
  have eb : (0x0b &&& 0xFF : Nat) = 11 := by decide
  have e0 : (0x00 &&& 0xFF : Nat) = 0 := by decide
  simp only [e1, e3, eb, e0, Nat.reduceAdd, Nat.reduceMod,
    word_of_bytes _ _ (hbytes 1) (hbytes 2), word_of_bytes _ _ (hbytes 3) (hbytes 4),
    Nat.mod_eq_of_lt (hbytes 11), Nat.mod_eq_of_lt (hbytes 0)]

theorem mock_burnMaxAngleAndConfig_value (regs : Nat → Nat) (ptr : Nat) (script : List Nat)
    (hbytes : ∀ a, regs a < 256) :
    (AMS5600_burnMaxAngleAndConfig mockHAL ⟨regs, ptr, script⟩).value =
      if regs 0x00 ≠ 0 then -1
      else if regs 0x05 * 256 + regs 0x06 ≤ 206 then -2
      else 1 := by
  rw [burnMaxAngleAndConfig_value]
  simp only [AMS5600_getMaxAngle,
    AMS5600_getBurnCount, mock_RdWord, mock_RdByte, _ams5600_Address, _addr_mang, _addr_zmco]
  have e5 : (0x05 &&& 0xFF : Nat) = 5 := by decide
  have e0 : (0x00 &&& 0xFF : Nat) = 0 := by decide
  have h5 := hbytes 5
  have h6 := hbytes 6
  simp only [e5, e0, Nat.reduceAdd, Nat.reduceMod,
    word_of_bytes _ _ (hbytes 5) (hbytes 6), Nat.mod_eq_of_lt (hbytes 0),
    maxAngle_below_18_degrees_eq (regs 5 * 256 + regs 6) (by omega), decide_eq_true_eq]

theorem mock_burnAngle_regs (m : Mock) : (AMS5600_burnAngle mockHAL m).bus.regs = m.regs := by
  simp only [AMS5600_burnAngle, AMS5600_detectMagnet, AMS5600_getStartPosition,
    AMS5600_getEndPosition, AMS5600_getMaxAngle, AMS5600_getBurnCount, mock_RdWord, mock_RdByte]
  split_ifs <;> rfl

theorem mock_burnMaxAngleAndConfig_regs (m : Mock) :
    (AMS5600_burnMaxAngleAndConfig mockHAL m).bus.regs = m.regs := by
  simp only [AMS5600_burnMaxAngleAndConfig, AMS5600_getMaxAngle, AMS5600_getBurnCount,
    mock_RdWord, mock_RdByte]
  split_ifs <;> rfl

theorem logged_burnAngle {σ : Type} (hal : I2C_HandleTypeDef σ) (w : σ) (l : List Transfer) :
    (AMS5600_burnAngle (logged hal) (w, l)).value = (AMS5600_burnAngle hal w).value ∧
    (AMS5600_burnAngle (logged hal) (w, l)).bus.1 = (AMS5600_burnAngle hal w).bus := by
  simp only [AMS5600_burnAngle, AMS5600_detectMagnet, AMS5600_getStartPosition,
    AMS5600_getEndPosition, AMS5600_getMaxAngle, AMS5600_getBurnCount,
    logged_RdWord, logged_RdByte]
  split_ifs <;> exact ⟨rfl, rfl⟩

theorem logged_burnMaxAngleAndConfig {σ : Type} (hal : I2C_HandleTypeDef σ) (w : σ)
    (l : List Transfer) :
    (AMS5600_burnMaxAngleAndConfig (logged hal) (w, l)).value =
      (AMS5600_burnMaxAngleAndConfig hal w).value ∧
    (AMS5600_burnMaxAngleAndConfig (logged hal) (w, l)).bus.1 =
      (AMS5600_burnMaxAngleAndConfig hal w).bus := by
  simp only [AMS5600_burnMaxAngleAndConfig, AMS5600_getMaxAngle, AMS5600_getBurnCount,
    logged_RdWord, logged_RdByte]
  split_ifs <;> exact ⟨rfl, rfl⟩

theorem burnAngle_log_no_write {σ : Type} (hal : I2C_HandleTypeDef σ) (w : σ) :
    ∀ e ∈ (AMS5600_burnAngle (logged hal) (w, [])).bus.2, e.isWrite = false := by
  simp only [AMS5600_burnAngle, AMS5600_detectMagnet, AMS5600_getStartPosition,
    AMS5600_getEndPosition, AMS5600_getMaxAngle, AMS5600_getBurnCount,
    logged_RdWord, logged_RdByte]
  split_ifs <;> simp [Transfer.isWrite]

theorem burnMaxAngleAndConfig_log_no_write {σ : Type} (hal : I2C_HandleTypeDef σ) (w : σ) :
    ∀ e ∈ (AMS5600_burnMaxAngleAndConfig (logged hal) (w, [])).bus.2, e.isWrite = false := by
  simp only [AMS5600_burnMaxAngleAndConfig, AMS5600_getMaxAngle, AMS5600_getBurnCount,
    logged_RdWord, logged_RdByte]
  split_ifs <;> simp [Transfer.isWrite]

/-- For every argument, sentinel or not, the three setters transmit the argument itself, most
significant byte first, to their target register, and then read that register back. -/
theorem setters_write_argument {σ : Type} (hal : I2C_HandleTypeDef σ) (w : σ) (v : Nat) :
    (∃ s1 s2 s3, (AMS5600_setStartPosition (logged hal) v (w, [])).bus.2 =
      [Transfer.transmit 0x6C [0x01, (v >>> 8) &&& 0xFF, v &&& 0xFF] 100 s1,
       Transfer.transmit 0x6C [0x01] 100 s2, Transfer.receive 0x6C 2 100 s3]) ∧
    (∃ s1 s2 s3, (AMS5600_setEndPosition (logged hal) v (w, [])).bus.2 =
      [Transfer.transmit 0x6C [0x03, (v >>> 8) &&& 0xFF, v &&& 0xFF] 100 s1,
       Transfer.transmit 0x6C [0x03] 100 s2, Transfer.receive 0x6C 2 100 s3]) ∧
    (∃ s1 s2 s3, (AMS5600_setMaxAngle (logged hal) v (w, [])).bus.2 =
      [Transfer.transmit 0x6C [0x05, (v >>> 8) &&& 0xFF, v &&& 0xFF] 100 s1,
       Transfer.transmit 0x6C [0x05] 100 s2, Transfer.receive 0x6C 2 100 s3]) := by
  refine ⟨?_, ?_, ?_⟩
  · simp only [AMS5600_setStartPosition, sentinel_test, if_false, logged_RdWord, logged_WrWord]
    exact ⟨_, _, _, rfl⟩
  · simp only [AMS5600_setEndPosition, logged_RdWord, logged_WrWord]
    exact ⟨_, _, _, rfl⟩
  · simp only [AMS5600_setMaxAngle, sentinel_test, if_false, logged_RdWord, logged_WrWord]
    exact ⟨_, _, _, rfl⟩

/-! ## Magnet strength decoding (C1) -/

/-- C1: whatever status byte `s` a read of register 0x0B delivers, `AMS5600_getMagnetStrength`
outputs 0 when MD (0x20) is clear, 2 when MD is set and ML (0x10), MH (0x08) are clear,
1 when MD and ML are set, 3 when MD and MH are set and ML is clear; the output is one of
0, 1, 2, 3 and is the same for any two status bytes that agree on the bits MD, ML, MH. -/
theorem getMagnetStrength_decodes {σ : Type} (hal : I2C_HandleTypeDef σ) (w : σ) (s : Nat)
    (hs : (AMS5600_RdByte hal _ams5600_Address _addr_status w).value = s) :
    (s &&& 0x20 = 0 → (AMS5600_getMagnetStrength hal w).value = 0) ∧
    (s &&& 0x20 ≠ 0 → s &&& 0x10 = 0 → s &&& 0x08 = 0 →
      (AMS5600_getMagnetStrength hal w).value = 2) ∧
    (s &&& 0x20 ≠ 0 → s &&& 0x10 ≠ 0 → (AMS5600_getMagnetStrength hal w).value = 1) ∧
    (s &&& 0x20 ≠ 0 → s &&& 0x08 ≠ 0 → s &&& 0x10 = 0 →
      (AMS5600_getMagnetStrength hal w).value = 3) ∧
    (AMS5600_getMagnetStrength hal w).value ∈ [0, 1, 2, 3] ∧
    (∀ (τ : Type) (hal2 : I2C_HandleTypeDef τ) (w2 : τ),
      (AMS5600_RdByte hal2 _ams5600_Address _addr_status w2).value &&& 0x38 = s &&& 0x38 →
      (AMS5600_getMagnetStrength hal2 w2).value = (AMS5600_getMagnetStrength hal w).value) := by
  refine ⟨?_, ?_, ?_, ?_, ?_, ?_⟩
  · intro h; rw [getMagnetStrength_value, hs]; simp [h]
  · intro h1 h2 h3; rw [getMagnetStrength_value, hs]; simp [h1, h2, h3]
  · intro h1 h2; rw [getMagnetStrength_value, hs]; simp [h1, h2]
  · intro h1 h2 h3; rw [getMagnetStrength_value, hs]; simp [h1, h2, h3]
  · rw [getMagnetStrength_value, hs]
    simp only []
    split_ifs <;> simp
  · intro τ hal2 w2 h
    rw [getMagnetStrength_value, getMagnetStrength_value, hs]
    have e1 := mask_of_mask s 0x38 0x20 (by decide)
    have e2 := mask_of_mask s 0x38 0x10 (by decide)
    have e3 := mask_of_mask s 0x38 0x08 (by decide)
    have f1 := mask_of_mask (AMS5600_RdByte hal2 _ams5600_Address _addr_status w2).value
      0x38 0x20 (by decide)
    have f2 := mask_of_mask (AMS5600_RdByte hal2 _ams5600_Address _addr_status w2).value
      0x38 0x10 (by decide)
    have f3 := mask_of_mask (AMS5600_RdByte hal2 _ams5600_Address _addr_status w2).value
      0x38 0x08 (by decide)
    rw [h] at f1 f2 f3
    simp only [← f1, ← f2, ← f3, e1, e2, e3]

/-- Instance of C1 on the mocked device with status byte 0x28 (MD and MH set, ML clear). -/
theorem getMagnetStrength_decodes_witness :
    (AMS5600_RdByte mockHAL _ams5600_Address _addr_status
        (Mock.ok (regsOf [(0x0b, 0x28)]))).value = 0x28 ∧
    (AMS5600_getMagnetStrength mockHAL (Mock.ok (regsOf [(0x0b, 0x28)]))).value = 3 :=
  ⟨by decide,
   (getMagnetStrength_decodes mockHAL (Mock.ok (regsOf [(0x0b, 0x28)])) 0x28 (by decide)).2.2.2.1
     (by decide) (by decide) (by decide)⟩

/-! ## Precondition order of `AMS5600_burnAngle` (C2) -/

/-- C2: on a device whose registers hold the status byte `s`, the burn count `z`, the start
position `zpos` and the end position `mpos`, and whatever statuses the transfers return,
`AMS5600_burnAngle` sets its result code to -1 if MD (0x20) is clear in `s`; otherwise to -2
if `z >= 3`; otherwise to -3 if `zpos = 0` and `mpos = 0`; otherwise to 1. -/
theorem burnAngle_precondition_order (regs : Nat → Nat) (ptr : Nat) (script : List Nat)
    (s z zpos mpos : Nat) (hbytes : ∀ a, regs a < 256)
    (hs : regs 0x0b = s) (hz : regs 0x00 = z)
    (hzpos : regs 0x01 * 256 + regs 0x02 = zpos) (hmpos : regs 0x03 * 256 + regs 0x04 = mpos) :
    (AMS5600_burnAngle mockHAL ⟨regs, ptr, script⟩).value =
      if s &&& 0x20 = 0 then -1
      else if 3 ≤ z then -2
      else if zpos = 0 ∧ mpos = 0 then -3
      else 1 := by
  subst hs hz hzpos hmpos
  exact mock_burnAngle_value regs ptr script hbytes

/-- Instance of C2 on the mocked device: magnet detected, burn count 2, both positions 0,
and a failing first transfer. -/
theorem burnAngle_precondition_order_witness :
    (AMS5600_burnAngle mockHAL
      ⟨regsOf [(0x0b, 0x20), (0x00, 2), (0x01, 0), (0x02, 0), (0x03, 0), (0x04, 0)], 0, [1, 0, 3]⟩).value
      = -3 :=
  burnAngle_precondition_order
    (regsOf [(0x0b, 0x20), (0x00, 2), (0x01, 0), (0x02, 0), (0x03, 0), (0x04, 0)]) 0 [1, 0, 3]
    0x20 2 0 0 (regsOf_byte _ (by decide)) (by decide) (by decide) (by decide) (by decide)

/-! ## Result code 1 of the burn operations (C3) -/

/-- C3, as stated, fails: with a magnet detected, burn count 0 and start position 1,
`AMS5600_burnAngle` sets its result code to 1, and with burn count 0 and raw maximum angle 207
so does `AMS5600_burnMaxAngleAndConfig`, although neither writes anything to the device. -/
theorem burn_result_code_1_reached :
    (AMS5600_burnAngle mockHAL (Mock.ok (regsOf [(0x0b, 0x20), (0x00, 0), (0x02, 1)]))).value = 1 ∧
    (AMS5600_burnMaxAngleAndConfig mockHAL (Mock.ok (regsOf [(0x00, 0), (0x06, 207)]))).value = 1 := by
  decide

theorem RdWord_value_lt {σ : Type} (hal : I2C_HandleTypeDef σ) (dev r : Nat) (w : σ) :
    (AMS5600_RdWord hal dev r w).value < 65536 :=
  Nat.mod_lt _ (by norm_num)

/-- C3 (amended): the permanent-write step is disabled, so the composite burn operations
perform no write transfer, but they still report the result code 1 whenever their checks pass
on the values their reads deliver.  On any bus and whatever status each transfer returns:
`AMS5600_burnAngle`, whose reads deliver the start position `zpos`, the end position `mpos`, the
status byte `s` and (when MD is set) the burn count `z`, sets its result code to 1 exactly when
MD (0x20) is set in `s`, `z < 3` and `zpos`, `mpos` are not both 0;
`AMS5600_burnMaxAngleAndConfig`, whose reads deliver the raw maximum angle `m` and the burn
count `z2`, sets it to 1 exactly when `z2 = 0` and `m >= 207`; neither performs a write
transfer. -/
theorem burn_reports_1_without_writing {σ : Type} (hal : I2C_HandleTypeDef σ) (w : σ)
    (s z zpos mpos m z2 : Nat)
    (hzpos : (AMS5600_getStartPosition hal w).value = zpos)
    (hmpos : (AMS5600_getEndPosition hal (AMS5600_getStartPosition hal w).bus).value = mpos)
    (hs : (AMS5600_RdByte hal _ams5600_Address _addr_status
            (AMS5600_getMaxAngle hal (AMS5600_getEndPosition hal
              (AMS5600_getStartPosition hal w).bus).bus).bus).value = s)
    (hz : (AMS5600_getBurnCount hal
            (AMS5600_RdByte hal _ams5600_Address _addr_status
              (AMS5600_getMaxAngle hal (AMS5600_getEndPosition hal
                (AMS5600_getStartPosition hal w).bus).bus).bus).bus).value = z)
    (hm : (AMS5600_getMaxAngle hal w).value = m)
    (hz2 : (AMS5600_getBurnCount hal (AMS5600_getMaxAngle hal w).bus).value = z2) :
    ((AMS5600_burnAngle hal w).value = 1 ↔
      (s &&& 0x20 ≠ 0 ∧ z < 3 ∧ ¬ (zpos = 0 ∧ mpos = 0))) ∧
    ((AMS5600_burnMaxAngleAndConfig hal w).value = 1 ↔ (z2 = 0 ∧ 207 ≤ m)) ∧
    (∀ e ∈ (AMS5600_burnAngle (logged hal) (w, [])).bus.2, e.isWrite = false) ∧
    (∀ e ∈ (AMS5600_burnMaxAngleAndConfig (logged hal) (w, [])).bus.2, e.isWrite = false) := by
  refine ⟨?_, ?_, burnAngle_log_no_write hal w, burnMaxAngleAndConfig_log_no_write hal w⟩
  · rw [burnAngle_value]
    simp only [hzpos, hmpos, hs, hz]
    split_ifs <;> simp_all
  · have hlt : m < 65536 := hm ▸ RdWord_value_lt hal _ _ w
    rw [burnMaxAngleAndConfig_value]
    simp only [hm, hz2, maxAngle_below_18_degrees_eq m hlt, decide_eq_true_eq]
    split_ifs <;> simp_all <;> omega

/-- Instance of the amended C3 on the mocked device: magnet detected, burn count 0, start
position 1, raw maximum angle 207. -/
theorem burn_reports_1_without_writing_witness :
    (AMS5600_burnAngle mockHAL
        ⟨regsOf [(0x0b, 0x20), (0x00, 0), (0x02, 1), (0x06, 207)], 0, []⟩).value = 1 ∧
    (AMS5600_burnMaxAngleAndConfig mockHAL
        ⟨regsOf [(0x0b, 0x20), (0x00, 0), (0x02, 1), (0x06, 207)], 0, []⟩).value = 1 :=
  have h := burn_reports_1_without_writing mockHAL
    ⟨regsOf [(0x0b, 0x20), (0x00, 0), (0x02, 1), (0x06, 207)], 0, []⟩ 0x20 0 1 0 207 0
    (by decide) (by decide) (by decide) (by decide) (by decide) (by decide)
  ⟨h.1.mpr (by decide), h.2.1.mpr (by decide)⟩

/-! ## The sentinel argument of the setters (C4) -/

/-- C4 fails on the code at the sentinel: on a device whose raw-angle registers 0x0C, 0x0D hold
0x01, 0x23, a call with argument 0xFFFF (the `uint16_t` value of -1) transmits the bytes
0xFF, 0xFF to the target register and never selects register 0x0C, for each of
`AMS5600_setStartPosition`, `AMS5600_setEndPosition` and `AMS5600_setMaxAngle`. -/
theorem setters_ignore_sentinel :
    (AMS5600_setStartPosition (logged mockHAL) 0xFFFF
        (Mock.ok (regsOf [(0x0c, 0x01), (0x0d, 0x23)]), [])).bus.2 =
      [Transfer.transmit 0x6C [0x01, 0xFF, 0xFF] 100 0,
       Transfer.transmit 0x6C [0x01] 100 0, Transfer.receive 0x6C 2 100 0] ∧
    (AMS5600_setEndPosition (logged mockHAL) 0xFFFF
        (Mock.ok (regsOf [(0x0c, 0x01), (0x0d, 0x23)]), [])).bus.2 =
      [Transfer.transmit 0x6C [0x03, 0xFF, 0xFF] 100 0,
       Transfer.transmit 0x6C [0x03] 100 0, Transfer.receive 0x6C 2 100 0] ∧
    (AMS5600_setMaxAngle (logged mockHAL) 0xFFFF
        (Mock.ok (regsOf [(0x0c, 0x01), (0x0d, 0x23)]), [])).bus.2 =
      [Transfer.transmit 0x6C [0x05, 0xFF, 0xFF] 100 0,
       Transfer.transmit 0x6C [0x05] 100 0, Transfer.receive 0x6C 2 100 0] ∧
    (AMS5600_setStartPosition mockHAL 0xFFFF
        (Mock.ok (regsOf [(0x0c, 0x01), (0x0d, 0x23)]))).value = 0xFFFF ∧
    (AMS5600_getRawAngle mockHAL (Mock.ok (regsOf [(0x0c, 0x01), (0x0d, 0x23)]))).value = 0x0123 := by
  decide

/-! ## Word encoding (C5) -/

/-- C5: for every register address `r` and every 16-bit value `v`, `AMS5600_WrWord` performs one
transmit carrying the three bytes `r`, `v >> 8`, `v & 0xFF` in that order; `AMS5600_RdWord`
decodes received bytes `b0`, `b1` as `b0 * 256 + b1`; and when the two bytes received are the
two data bytes `AMS5600_WrWord` sends for `v`, `AMS5600_RdWord` outputs exactly `v`. -/
theorem word_transfer_msb_first {σ : Type} (hal : I2C_HandleTypeDef σ) (w : σ)
    (dev r v : Nat) (hr : r < 256) (hv : v < 65536) :
    (AMS5600_WrWord (logged hal) dev r v (w, [])).bus.2 =
      [Transfer.transmit dev [r, v >>> 8, v &&& 0xFF] 100
        (hal.HAL_I2C_Master_Transmit dev [r, v >>> 8, v &&& 0xFF] 100 w).1] ∧
    (∀ b0 b1, b0 < 256 → b1 < 256 →
      (hal.HAL_I2C_Master_Receive dev 2 100
        (hal.HAL_I2C_Master_Transmit dev [r] 100 w).2).1.2 = [b0, b1] →
      (AMS5600_RdWord hal dev r w).value = b0 * 256 + b1) ∧
    ((hal.HAL_I2C_Master_Receive dev 2 100
        (hal.HAL_I2C_Master_Transmit dev [r] 100 w).2).1.2 = [v >>> 8, v &&& 0xFF] →
      (AMS5600_RdWord hal dev r w).value = v) := by
  have hr2 : r &&& 0xFF = r := by rw [and_255]; exact Nat.mod_eq_of_lt hr
  obtain ⟨h1, h2, h3, h4⟩ := word_split v hv
  have key : ∀ b0 b1, b0 < 256 → b1 < 256 →
      (hal.HAL_I2C_Master_Receive dev 2 100
        (hal.HAL_I2C_Master_Transmit dev [r] 100 w).2).1.2 = [b0, b1] →
      (AMS5600_RdWord hal dev r w).value = b0 * 256 + b1 := by
    intro b0 b1 hb0 hb1 hrecv
    simp only [AMS5600_RdWord, hr2, hrecv]
    exact word_of_bytes b0 b1 hb0 hb1
  refine ⟨?_, key, ?_⟩
  · rw [logged_WrWord, hr2, h1]
    rfl
  · intro hrecv
    rw [key _ _ h2 h3 hrecv, h4]

/-- Instance of C5 on the mocked device for register 0x01 and the value 0x0ABC. -/
theorem word_transfer_msb_first_witness :
    (AMS5600_WrWord (logged mockHAL) 0x6C 0x01 0x0ABC (Mock.ok (regsOf []), [])).bus.2 =
      [Transfer.transmit 0x6C [0x01, 0x0A, 0xBC] 100 0] ∧
    (AMS5600_RdWord mockHAL 0x6C 0x01 (Mock.ok (regsOf [(0x01, 0x0A), (0x02, 0xBC)]))).value
      = 0x0ABC :=
  ⟨(word_transfer_msb_first mockHAL (Mock.ok (regsOf [])) 0x6C 0x01 0x0ABC
      (by decide) (by decide)).1,
   (word_transfer_msb_first mockHAL (Mock.ok (regsOf [(0x01, 0x0A), (0x02, 0xBC)]))
      0x6C 0x01 0x0ABC (by decide) (by decide)).2.2 (by decide)⟩

/-! ## Write then read on the mocked device (C6) -/

/-- C6: on the mocked device (every written byte is stored at the selected register address,
the second byte at the next one) with all transfers succeeding, a write followed by a read
returns the written value: `AMS5600_WrByte(r, b)` then `AMS5600_RdByte(r)` yields `b`;
`AMS5600_WrWord(r, v)` then `AMS5600_RdWord(r)` yields `v`; `AMS5600_setStartPosition(v)`,
`AMS5600_setEndPosition(v)` and `AMS5600_setMaxAngle(v)` output `v` with status 0 (for every
16-bit `v`, in particular every non-sentinel one); `AMS5600_setConf(v)` followed by
`AMS5600_getConf` yields `v`. -/
theorem mock_write_then_read (regs : Nat → Nat) (ptr : Nat) (script : List Nat)
    (dev r b v : Nat) (hok : ∀ x ∈ script, x = 0)
    (hr : r < 256) (hb : b < 256) (hv : v < 65536) :
    (AMS5600_RdByte mockHAL dev r (AMS5600_WrByte mockHAL dev r b ⟨regs, ptr, script⟩).bus).value
      = b ∧
    (AMS5600_RdWord mockHAL dev r (AMS5600_WrWord mockHAL dev r v ⟨regs, ptr, script⟩).bus).value
      = v ∧
    ((AMS5600_setStartPosition mockHAL v ⟨regs, ptr, script⟩).value = v ∧
     (AMS5600_setStartPosition mockHAL v ⟨regs, ptr, script⟩).status = 0) ∧
    ((AMS5600_setEndPosition mockHAL v ⟨regs, ptr, script⟩).value = v ∧
     (AMS5600_setEndPosition mockHAL v ⟨regs, ptr, script⟩).status = 0) ∧
    ((AMS5600_setMaxAngle mockHAL v ⟨regs, ptr, script⟩).value = v ∧
     (AMS5600_setMaxAngle mockHAL v ⟨regs, ptr, script⟩).status = 0) ∧
    (AMS5600_getConf mockHAL (AMS5600_setConf mockHAL v ⟨regs, ptr, script⟩).bus).value = v := by
  have hr2 : r &&& 0xFF = r := by rw [and_255]; exact Nat.mod_eq_of_lt hr
  have hb2 : b &&& 0xFF = b := by rw [and_255]; exact Nat.mod_eq_of_lt hb
  have h0 := headD_ok script hok
  have h1 := headD_ok _ (tail_ok script hok)
  have h2 := headD_ok _ (tail_ok _ (tail_ok script hok))
  refine ⟨?_, mock_WrWord_RdWord dev r v _ hr hv, ⟨?_, ?_⟩, ⟨?_, ?_⟩, ⟨?_, ?_⟩, ?_⟩
  · simp only [mock_WrByte, mock_RdByte, hr2, hb2, if_true]
    exact Nat.mod_eq_of_lt hb
  · simp only [AMS5600_setStartPosition, sentinel_test, if_false]
    exact mock_WrWord_RdWord _ _ v _ (by decide) hv
  · simp only [AMS5600_setStartPosition, sentinel_test, if_false, Nat.zero_or]
    simp only [mock_WrWord, mock_RdWord, h0, h1, h2]
    rfl
  · simp only [AMS5600_setEndPosition]
    exact mock_WrWord_RdWord _ _ v _ (by decide) hv
  · simp only [AMS5600_setEndPosition, Nat.zero_or]
    simp only [mock_WrWord, mock_RdWord, h0, h1, h2]
    rfl
  · simp only [AMS5600_setMaxAngle, sentinel_test, if_false]
    exact mock_WrWord_RdWord _ _ v _ (by decide) hv
  · simp only [AMS5600_setMaxAngle, sentinel_test, if_false, Nat.zero_or]
    simp only [mock_WrWord, mock_RdWord, h0, h1, h2]
    rfl
  · simp only [AMS5600_setConf, AMS5600_getConf]
    exact mock_WrWord_RdWord _ _ v _ (by decide) hv

/-- Instance of C6 for register 0x08, the byte 0x5A and the word 0x0ABC. -/
theorem mock_write_then_read_witness :
    (AMS5600_RdByte mockHAL 0x6C 0x08 (AMS5600_WrByte mockHAL 0x6C 0x08 0x5A
      ⟨regsOf [], 0, [0, 0, 0]⟩).bus).value = 0x5A ∧
    (AMS5600_setStartPosition mockHAL 0x0ABC ⟨regsOf [], 0, [0, 0, 0]⟩).value = 0x0ABC ∧
    (AMS5600_setStartPosition mockHAL 0x0ABC ⟨regsOf [], 0, [0, 0, 0]⟩).status = 0 :=
  have h := mock_write_then_read (regsOf []) 0 [0, 0, 0] 0x6C 0x08 0x5A 0x0ABC
    (by decide) (by decide) (by decide) (by decide)
  ⟨h.1, h.2.2.1.1, h.2.2.1.2⟩

/-! ## Status accumulation (C7) -/

/-- C7: for `AMS5600_setOutPut`, `AMS5600_setMaxAngle`, `AMS5600_setStartPosition`,
`AMS5600_setEndPosition`, `AMS5600_burnAngle` and `AMS5600_burnMaxAngleAndConfig`, on any bus
and whatever status each transfer returns, the returned status is the bitwise OR of the status
bytes of all the I2C transfers the operation performed, and it is 0 if and only if every one of
those transfers returned status byte 0. -/
theorem status_is_or_of_transfer_statuses {σ : Type} (hal : I2C_HandleTypeDef σ) (w : σ) :
    (∀ mode, StatusSurfaces (AMS5600_setOutPut (logged hal) mode (w, []))) ∧
    (∀ v, StatusSurfaces (AMS5600_setMaxAngle (logged hal) v (w, []))) ∧
    (∀ v, StatusSurfaces (AMS5600_setStartPosition (logged hal) v (w, []))) ∧
    (∀ v, StatusSurfaces (AMS5600_setEndPosition (logged hal) v (w, []))) ∧
    StatusSurfaces (AMS5600_burnAngle (logged hal) (w, [])) ∧
    StatusSurfaces (AMS5600_burnMaxAngleAndConfig (logged hal) (w, [])) := by
  refine ⟨?_, ?_, ?_, ?_, ?_, ?_⟩
  · intro mode
    apply statusSurfaces_of_eq
    simp only [AMS5600_setOutPut, logged_RdByte, logged_WrByte, RdByte_status, WrByte_status,
      List.nil_append, List.cons_append, orStatus_cons, orStatus_nil, Transfer.statusByte,
      Transfer.status, or_mod_256, Nat.mod_mod, Nat.or_zero, Nat.or_assoc]
  · intro v
    apply statusSurfaces_of_eq
    simp only [AMS5600_setMaxAngle, sentinel_test, if_false, logged_RdWord, logged_WrWord,
      RdWord_status, WrWord_status,
      List.nil_append, List.cons_append, orStatus_cons, orStatus_nil, Transfer.statusByte,
      Transfer.status, or_mod_256, Nat.mod_mod, Nat.or_zero, Nat.zero_or, Nat.or_assoc,
      Nat.zero_mod]
  · intro v
    apply statusSurfaces_of_eq
    simp only [AMS5600_setStartPosition, sentinel_test, if_false, logged_RdWord, logged_WrWord,
      RdWord_status, WrWord_status,
      List.nil_append, List.cons_append, orStatus_cons, orStatus_nil, Transfer.statusByte,
      Transfer.status, or_mod_256, Nat.mod_mod, Nat.or_zero, Nat.zero_or, Nat.or_assoc,
      Nat.zero_mod]
  · intro v
    apply statusSurfaces_of_eq
    simp only [AMS5600_setEndPosition, logged_RdWord, logged_WrWord,
      RdWord_status, WrWord_status,
      List.nil_append, List.cons_append, orStatus_cons, orStatus_nil, Transfer.statusByte,
      Transfer.status, or_mod_256, Nat.mod_mod, Nat.or_zero, Nat.zero_or, Nat.or_assoc,
      Nat.zero_mod]
  · apply statusSurfaces_of_eq
    simp only [AMS5600_burnAngle, AMS5600_detectMagnet, AMS5600_getStartPosition,
      AMS5600_getEndPosition, AMS5600_getMaxAngle, AMS5600_getBurnCount,
      logged_RdWord, logged_RdByte]
    split_ifs <;>
    simp only [RdWord_status, RdByte_status,
      List.nil_append, List.cons_append, orStatus_cons, orStatus_nil, Transfer.statusByte,
      Transfer.status, or_mod_256, Nat.mod_mod, Nat.or_zero, Nat.zero_or, Nat.or_assoc,
      Nat.zero_mod]
  · apply statusSurfaces_of_eq
    simp only [AMS5600_burnMaxAngleAndConfig, AMS5600_getMaxAngle, AMS5600_getBurnCount,
      logged_RdWord, logged_RdByte]
    split_ifs <;>
    simp only [RdWord_status, RdByte_status,
      List.nil_append, List.cons_append, orStatus_cons, orStatus_nil, Transfer.statusByte,
      Transfer.status, or_mod_256, Nat.mod_mod, Nat.or_zero, Nat.zero_or, Nat.or_assoc,
      Nat.zero_mod]

/-! ## No permanent write (C8) -/

/-- C8: on any bus and whatever status each transfer returns, the transfers performed by
`AMS5600_burnAngle` and by `AMS5600_burnMaxAngleAndConfig` are register-select transmits of one
byte, each followed by a receive: none is a write transfer and no transmit carries the burn
register address 0xFF; and on the mocked device, whatever its registers, address pointer and
transfer statuses, the registers after either call are the registers before it.  The
operations that do write (`AMS5600_setOutPut`, `AMS5600_setMaxAngle`,
`AMS5600_setStartPosition`, `AMS5600_setEndPosition`, `AMS5600_setConf`) never address the burn
register either. -/
theorem burn_operations_issue_no_write {σ : Type} (hal : I2C_HandleTypeDef σ) (w : σ) (m : Mock) :
    selectReceivePairs (AMS5600_burnAngle (logged hal) (w, [])).bus.2 = true ∧
    selectReceivePairs (AMS5600_burnMaxAngleAndConfig (logged hal) (w, [])).bus.2 = true ∧
    (∀ e ∈ (AMS5600_burnAngle (logged hal) (w, [])).bus.2,
      e.isWrite = false ∧ e.addresses _addr_burn = false) ∧
    (∀ e ∈ (AMS5600_burnMaxAngleAndConfig (logged hal) (w, [])).bus.2,
      e.isWrite = false ∧ e.addresses _addr_burn = false) ∧
    (AMS5600_burnAngle mockHAL m).bus.regs = m.regs ∧
    (AMS5600_burnMaxAngleAndConfig mockHAL m).bus.regs = m.regs ∧
    (∀ mode, ∀ e ∈ (AMS5600_setOutPut (logged hal) mode (w, [])).bus.2,
      e.addresses _addr_burn = false) ∧
    (∀ v, ∀ e ∈ (AMS5600_setMaxAngle (logged hal) v (w, [])).bus.2,
      e.addresses _addr_burn = false) ∧
    (∀ v, ∀ e ∈ (AMS5600_setStartPosition (logged hal) v (w, [])).bus.2,
      e.addresses _addr_burn = false) ∧
    (∀ v, ∀ e ∈ (AMS5600_setEndPosition (logged hal) v (w, [])).bus.2,
      e.addresses _addr_burn = false) ∧
    (∀ v, ∀ e ∈ (AMS5600_setConf (logged hal) v (w, [])).bus.2,
      e.addresses _addr_burn = false) := by
  refine ⟨?_, ?_, ?_, ?_, mock_burnAngle_regs m, mock_burnMaxAngleAndConfig_regs m,
    ?_, ?_, ?_, ?_, ?_⟩
  · simp only [AMS5600_burnAngle, AMS5600_detectMagnet, AMS5600_getStartPosition,
      AMS5600_getEndPosition, AMS5600_getMaxAngle, AMS5600_getBurnCount,
      logged_RdWord, logged_RdByte]
    split_ifs <;> simp [selectReceivePairs]
  · simp only [AMS5600_burnMaxAngleAndConfig, AMS5600_getMaxAngle, AMS5600_getBurnCount,
      logged_RdWord, logged_RdByte]
    split_ifs <;> simp [selectReceivePairs]
  · simp only [AMS5600_burnAngle, AMS5600_detectMagnet, AMS5600_getStartPosition,
      AMS5600_getEndPosition, AMS5600_getMaxAngle, AMS5600_getBurnCount,
      logged_RdWord, logged_RdByte]
    split_ifs <;>
    simp [Transfer.isWrite, Transfer.addresses, _addr_burn, _addr_zpos, _addr_mpos, _addr_mang,
      _addr_status, _addr_zmco] <;> decide
  · simp only [AMS5600_burnMaxAngleAndConfig, AMS5600_getMaxAngle, AMS5600_getBurnCount,
      logged_RdWord, logged_RdByte]
    split_ifs <;>
    simp [Transfer.isWrite, Transfer.addresses, _addr_burn, _addr_mang, _addr_zmco] <;> decide
  · intro mode
    simp only [AMS5600_setOutPut, logged_RdByte, logged_WrByte]
    simp [Transfer.addresses, _addr_burn, _addr_conf]
    decide
  · intro v
    simp only [AMS5600_setMaxAngle, sentinel_test, if_false, logged_RdWord, logged_WrWord]
    simp [Transfer.addresses, _addr_burn, _addr_mang]
    decide
  · intro v
    simp only [AMS5600_setStartPosition, sentinel_test, if_false, logged_RdWord, logged_WrWord]
    simp [Transfer.addresses, _addr_burn, _addr_zpos]
  · intro v
    simp only [AMS5600_setEndPosition, logged_RdWord, logged_WrWord]
    simp [Transfer.addresses, _addr_burn, _addr_mpos]
    decide
  · intro v
    simp only [AMS5600_setConf, logged_WrWord]
    simp [Transfer.addresses, _addr_burn, _addr_conf]
    decide

/-! ## Result code of `AMS5600_burnMaxAngleAndConfig` (C9) -/

/-- C9: on a device whose registers hold the burn count `z` and the raw maximum angle `m`, and
whatever statuses the transfers return, `AMS5600_burnMaxAngleAndConfig` sets its result code to
-1 if `z` is not 0; otherwise to -2 exactly when the binary64 test `m * 0.087 < 18` of the code
holds, which is the case exactly when `m * 87 < 18000`, that is `m <= 206`; otherwise to 1. -/
theorem burnMaxAngleAndConfig_result_code (regs : Nat → Nat) (ptr : Nat) (script : List Nat)
    (z m : Nat) (hbytes : ∀ a, regs a < 256)
    (hz : regs 0x00 = z) (hm : regs 0x05 * 256 + regs 0x06 = m) :
    (AMS5600_burnMaxAngleAndConfig mockHAL ⟨regs, ptr, script⟩).value =
      (if z ≠ 0 then -1 else if maxAngle_below_18_degrees m then -2 else 1) ∧
    (maxAngle_below_18_degrees m = true ↔ m * 87 < 18000) ∧
    (m * 87 < 18000 ↔ m ≤ 206) := by
  subst hz hm
  have h5 := hbytes 5
  have h6 := hbytes 6
  have hd := maxAngle_below_18_degrees_eq (regs 5 * 256 + regs 6) (by omega)
  refine ⟨?_, ?_, ?_⟩
  · rw [mock_burnMaxAngleAndConfig_value regs ptr script hbytes, hd]
    simp only [decide_eq_true_eq]
  · rw [hd, decide_eq_true_eq]
    omega
  · omega

/-- Instance of C9 on the mocked device: burn count 0 and raw maximum angle 206. -/
theorem burnMaxAngleAndConfig_result_code_witness :
    (AMS5600_burnMaxAngleAndConfig mockHAL ⟨regsOf [(0x00, 0), (0x05, 0), (0x06, 206)], 0, [2]⟩).value
      = -2 :=
  (burnMaxAngleAndConfig_result_code (regsOf [(0x00, 0), (0x05, 0), (0x06, 206)]) 0 [2] 0 206
    (regsOf_byte _ (by decide)) (by decide) (by decide)).1

/-! ## Output mode field (C10) -/

/-- C10: for every mode and every byte `c` that the read of register 0x08 delivers,
`AMS5600_setOutPut` performs, after that read, exactly one write transfer; it carries register
address 0x08 and the byte `(c & 0xCF) | f`, where `f` is 0x20 for mode 0, 0x10 for mode 2 and
0x00 for mode 1 and every other mode.  Bits 7, 6 and 3..0 of the written byte are those of `c`,
and bits 5:4 are `f`.  On the mocked device every register other than 0x08 keeps its
content. -/
theorem setOutPut_writes_mode_field {σ : Type} (hal : I2C_HandleTypeDef σ) (w : σ)
    (mode c : Nat) (hc : (AMS5600_RdByte hal _ams5600_Address 0x08 w).value = c) :
    (AMS5600_setOutPut (logged hal) mode (w, [])).bus.2.map Transfer.request =
      [Request.transmit 0x6C [0x08] 100, Request.receive 0x6C 1 100,
       Request.transmit 0x6C
         [0x08, (c &&& 0xCF) ||| (if mode = 0 then 0x20 else if mode = 2 then 0x10 else 0x00)]
         100] ∧
    ((c &&& 0xCF) ||| (if mode = 0 then 0x20 else if mode = 2 then 0x10 else 0x00)) &&& 0xCF
      = c &&& 0xCF ∧
    ((c &&& 0xCF) ||| (if mode = 0 then 0x20 else if mode = 2 then 0x10 else 0x00)) &&& 0x30
      = (if mode = 0 then 0x20 else if mode = 2 then 0x10 else 0x00) ∧
    (∀ (m : Mock) (a : Nat), a ≠ 0x08 →
      (AMS5600_setOutPut mockHAL mode m).bus.regs a = m.regs a) := by
  have hlt : c < 256 := hc ▸ RdByte_value_lt hal _ _ w
  obtain ⟨b0, b2, b1, m0, f0, m2, f2, m1, f1⟩ := outPut_byte c hlt
  have h8 : (_addr_conf + 1) % 65536 % 256 = 0x08 := by decide
  refine ⟨?_, ?_, ?_, ?_⟩
  · simp only [AMS5600_setOutPut, h8, logged_RdByte, logged_WrByte, hc]
    split_ifs
    · rw [b0]; rfl
    · rw [b2]; rfl
    · rw [b1]; rfl
  · split_ifs
    · exact m0
    · exact m2
    · exact m1
  · split_ifs
    · exact f0
    · exact f2
    · exact f1
  · intro m a ha
    have e8 : (0x08 &&& 0xFF : Nat) = 8 := by decide
    simp only [AMS5600_setOutPut, h8, mock_RdByte, mock_WrByte, e8, if_neg ha]

/-- Instance of C10 on the mocked device: mode 0 with 0xFF in register 0x08. -/
theorem setOutPut_writes_mode_field_witness :
    (AMS5600_setOutPut (logged mockHAL) 0 (Mock.ok (regsOf [(0x08, 0xFF)]), [])).bus.2.map
        Transfer.request =
      [Request.transmit 0x6C [0x08] 100, Request.receive 0x6C 1 100,
       Request.transmit 0x6C [0x08, 0xEF] 100] :=
  (setOutPut_writes_mode_field mockHAL (Mock.ok (regsOf [(0x08, 0xFF)])) 0 0xFF (by decide)).1

/-! ## Device and register addresses (C11) -/

/-- A word read of register `r` on the mocked device covers `r` and `r + 1`. -/
theorem mock_RdWord_value (dev r : Nat) (m : Mock) (hr : r < 255)
    (hbytes : ∀ a, m.regs a < 256) :
    (AMS5600_RdWord mockHAL dev r m).value = m.regs r * 256 + m.regs (r + 1) := by
  have hr2 : r &&& 0xFF = r := by rw [and_255]; exact Nat.mod_eq_of_lt (by omega)
  have hr3 : (r + 1) % 256 = r + 1 := Nat.mod_eq_of_lt (by omega)
  rw [mock_RdWord]
  simp only [hr2, hr3]
  exact word_of_bytes _ _ (hbytes r) (hbytes (r + 1))

/-- C11: the device address is fixed, `0x36 << 1 = 0x6C`, and is what `AMS5600_getAddress`
returns.  On any bus, every transfer of every sensor operation goes to that address with
timeout 100, and the first byte transmitted is the documented register: 0x0B for
`AMS5600_detectMagnet` and `AMS5600_getMagnetStrength`, 0x1A for `AMS5600_getAgc`, 0x00 for
`AMS5600_getBurnCount`, 0x01 for get/set start position, 0x03 for get/set end position, 0x05
for get/set max angle, 0x07 for get/set conf, 0x0C for `AMS5600_getRawAngle`, 0x0E for
`AMS5600_getScaledAngle`, 0x1B for `AMS5600_getMagnitude`.  Byte accessors receive 1 byte;
word accessors receive 2 bytes or send 2 data bytes, so that on the mocked device a word getter
returns the register at that address (high byte) and the next one (low byte). -/
theorem operations_address_documented_registers {σ : Type} (hal : I2C_HandleTypeDef σ) (w : σ)
    (v : Nat) (m : Mock) (hbytes : ∀ a, m.regs a < 256) :
    (AMS5600_getAddress = 0x6C ∧ _ams5600_Address = 0x36 <<< 1) ∧
    ((AMS5600_detectMagnet (logged hal) (w, [])).bus.2.map Transfer.request =
        [Request.transmit 0x6C [0x0B] 100, Request.receive 0x6C 1 100] ∧
     (AMS5600_getMagnetStrength (logged hal) (w, [])).bus.2.map Transfer.request =
        [Request.transmit 0x6C [0x0B] 100, Request.receive 0x6C 1 100] ∧
     (AMS5600_getAgc (logged hal) (w, [])).bus.2.map Transfer.request =
        [Request.transmit 0x6C [0x1A] 100, Request.receive 0x6C 1 100] ∧
     (AMS5600_getBurnCount (logged hal) (w, [])).bus.2.map Transfer.request =
        [Request.transmit 0x6C [0x00] 100, Request.receive 0x6C 1 100]) ∧
    ((AMS5600_getStartPosition (logged hal) (w, [])).bus.2.map Transfer.request =
        [Request.transmit 0x6C [0x01] 100, Request.receive 0x6C 2 100] ∧
     (AMS5600_getEndPosition (logged hal) (w, [])).bus.2.map Transfer.request =
        [Request.transmit 0x6C [0x03] 100, Request.receive 0x6C 2 100] ∧
     (AMS5600_getMaxAngle (logged hal) (w, [])).bus.2.map Transfer.request =
        [Request.transmit 0x6C [0x05] 100, Request.receive 0x6C 2 100] ∧
     (AMS5600_getConf (logged hal) (w, [])).bus.2.map Transfer.request =
        [Request.transmit 0x6C [0x07] 100, Request.receive 0x6C 2 100] ∧
     (AMS5600_getRawAngle (logged hal) (w, [])).bus.2.map Transfer.request =
        [Request.transmit 0x6C [0x0C] 100, Request.receive 0x6C 2 100] ∧
     (AMS5600_getScaledAngle (logged hal) (w, [])).bus.2.map Transfer.request =
        [Request.transmit 0x6C [0x0E] 100, Request.receive 0x6C 2 100] ∧
     (AMS5600_getMagnitude (logged hal) (w, [])).bus.2.map Transfer.request =
        [Request.transmit 0x6C [0x1B] 100, Request.receive 0x6C 2 100]) ∧
    ((AMS5600_setStartPosition (logged hal) v (w, [])).bus.2.map Transfer.request =
        [Request.transmit 0x6C [0x01, (v >>> 8) &&& 0xFF, v &&& 0xFF] 100,
         Request.transmit 0x6C [0x01] 100, Request.receive 0x6C 2 100] ∧
     (AMS5600_setEndPosition (logged hal) v (w, [])).bus.2.map Transfer.request =
        [Request.transmit 0x6C [0x03, (v >>> 8) &&& 0xFF, v &&& 0xFF] 100,
         Request.transmit 0x6C [0x03] 100, Request.receive 0x6C 2 100] ∧
     (AMS5600_setMaxAngle (logged hal) v (w, [])).bus.2.map Transfer.request =
        [Request.transmit 0x6C [0x05, (v >>> 8) &&& 0xFF, v &&& 0xFF] 100,
         Request.transmit 0x6C [0x05] 100, Request.receive 0x6C 2 100] ∧
     (AMS5600_setConf (logged hal) v (w, [])).bus.2.map Transfer.request =
        [Request.transmit 0x6C [0x07, (v >>> 8) &&& 0xFF, v &&& 0xFF] 100]) ∧
    ((∀ mode, ∀ e ∈ (AMS5600_setOutPut (logged hal) mode (w, [])).bus.2, e.dev = 0x6C) ∧
     (∀ e ∈ (AMS5600_burnAngle (logged hal) (w, [])).bus.2, e.dev = 0x6C) ∧
     (∀ e ∈ (AMS5600_burnMaxAngleAndConfig (logged hal) (w, [])).bus.2, e.dev = 0x6C)) ∧
    ((AMS5600_getStartPosition mockHAL m).value = m.regs 0x01 * 256 + m.regs 0x02 ∧
     (AMS5600_getEndPosition mockHAL m).value = m.regs 0x03 * 256 + m.regs 0x04 ∧
     (AMS5600_getMaxAngle mockHAL m).value = m.regs 0x05 * 256 + m.regs 0x06 ∧
     (AMS5600_getConf mockHAL m).value = m.regs 0x07 * 256 + m.regs 0x08 ∧
     (AMS5600_getRawAngle mockHAL m).value = m.regs 0x0C * 256 + m.regs 0x0D ∧
     (AMS5600_getScaledAngle mockHAL m).value = m.regs 0x0E * 256 + m.regs 0x0F ∧
     (AMS5600_getMagnitude mockHAL m).value = m.regs 0x1B * 256 + m.regs 0x1C) := by
  refine ⟨⟨rfl, rfl⟩, ⟨?_, ?_, ?_, ?_⟩, ⟨?_, ?_, ?_, ?_, ?_, ?_, ?_⟩, ⟨?_, ?_, ?_, ?_⟩,
    ⟨?_, ?_, ?_⟩, ⟨?_, ?_, ?_, ?_, ?_, ?_, ?_⟩⟩
  · simp only [AMS5600_detectMagnet, logged_RdByte]; rfl
  · simp only [AMS5600_getMagnetStrength, logged_RdByte]; rfl
  · simp only [AMS5600_getAgc, logged_RdByte]; rfl
  · simp only [AMS5600_getBurnCount, logged_RdByte]; rfl
  · simp only [AMS5600_getStartPosition, logged_RdWord]; rfl
  · simp only [AMS5600_getEndPosition, logged_RdWord]; rfl
  · simp only [AMS5600_getMaxAngle, logged_RdWord]; rfl
  · simp only [AMS5600_getConf, logged_RdWord]; rfl
  · simp only [AMS5600_getRawAngle, logged_RdWord]; rfl
  · simp only [AMS5600_getScaledAngle, logged_RdWord]; rfl
  · simp only [AMS5600_getMagnitude, logged_RdWord]; rfl
  · simp only [AMS5600_setStartPosition, sentinel_test, if_false, logged_RdWord, logged_WrWord]
    rfl
  · simp only [AMS5600_setEndPosition, logged_RdWord, logged_WrWord]
    rfl
  · simp only [AMS5600_setMaxAngle, sentinel_test, if_false, logged_RdWord, logged_WrWord]
    rfl
  · simp only [AMS5600_setConf, logged_WrWord]; rfl
  · intro mode
    simp only [AMS5600_setOutPut, logged_RdByte, logged_WrByte]
    simp [Transfer.dev, _ams5600_Address]
  · simp only [AMS5600_burnAngle, AMS5600_detectMagnet, AMS5600_getStartPosition,
      AMS5600_getEndPosition, AMS5600_getMaxAngle, AMS5600_getBurnCount,
      logged_RdWord, logged_RdByte]
    split_ifs <;> simp [Transfer.dev, _ams5600_Address]
  · simp only [AMS5600_burnMaxAngleAndConfig, AMS5600_getMaxAngle, AMS5600_getBurnCount,
      logged_RdWord, logged_RdByte]
    split_ifs <;> simp [Transfer.dev, _ams5600_Address]
  · exact mock_RdWord_value _ _ m (by decide) hbytes
  · exact mock_RdWord_value _ _ m (by decide) hbytes
  · exact mock_RdWord_value _ _ m (by decide) hbytes
  · exact mock_RdWord_value _ _ m (by decide) hbytes
  · exact mock_RdWord_value _ _ m (by decide) hbytes
  · exact mock_RdWord_value _ _ m (by decide) hbytes
  · exact mock_RdWord_value _ _ m (by decide) hbytes

/-- Instance of C11 on the mocked device holding 0x0A, 0xBC in the raw-angle registers
0x0C, 0x0D. -/
theorem operations_address_documented_registers_witness :
    (AMS5600_getRawAngle (logged mockHAL) (Mock.ok (regsOf [(0x0C, 0x0A), (0x0D, 0xBC)]), [])).bus.2
      = [Transfer.transmit 0x6C [0x0C] 100 0, Transfer.receive 0x6C 2 100 0] ∧
    (AMS5600_getRawAngle mockHAL (Mock.ok (regsOf [(0x0C, 0x0A), (0x0D, 0xBC)]))).value = 0x0ABC :=
  ⟨by decide,
   (operations_address_documented_registers mockHAL (Mock.ok (regsOf [])) 0
      (Mock.ok (regsOf [(0x0C, 0x0A), (0x0D, 0xBC)])) (regsOf_byte _ (by decide))).2.2.2.2.2.2.2.2.2.1⟩

/-! ## Transfers of the register access layer (C12) -/

/-- C12, as stated, fails for the write calls: `AMS5600_WrByte` and `AMS5600_WrWord` each
perform one transfer, not two; that single transmit carries the register address together with
the data. -/
theorem write_calls_issue_one_transfer :
    (AMS5600_WrByte (logged mockHAL) 0x6C 0x08 0x5A (Mock.ok (regsOf []), [])).bus.2 =
      [Transfer.transmit 0x6C [0x08, 0x5A] 100 0] ∧
    (AMS5600_WrWord (logged mockHAL) 0x6C 0x01 0x0ABC (Mock.ok (regsOf []), [])).bus.2 =
      [Transfer.transmit 0x6C [0x01, 0x0A, 0xBC] 100 0] ∧
    (AMS5600_WrByte (logged mockHAL) 0x6C 0x08 0x5A (Mock.ok (regsOf []), [])).bus.2.length ≠ 2 ∧
    (AMS5600_WrWord (logged mockHAL) 0x6C 0x01 0x0ABC (Mock.ok (regsOf []), [])).bus.2.length ≠ 2 := by
  decide

/-- C12 (amended): no call of the register access layer retries, and every transfer uses the
fixed timeout 100.  On any bus, for every device address, register and value, and whatever
status each transfer returns: `AMS5600_RdByte` and `AMS5600_RdWord` issue exactly two transfers,
a transmit carrying only the register address and then a receive of 1, respectively 2, bytes,
whether or not the transmit failed; `AMS5600_WrByte` and `AMS5600_WrWord` issue exactly one
transfer, a transmit carrying the register address followed by the 1, respectively 2, data
bytes. -/
theorem register_access_transfers {σ : Type} (hal : I2C_HandleTypeDef σ) (w : σ)
    (dev r v : Nat) :
    (AMS5600_RdByte (logged hal) dev r (w, [])).bus.2.map Transfer.request =
      [Request.transmit dev [r &&& 0xFF] 100, Request.receive dev 1 100] ∧
    (AMS5600_RdWord (logged hal) dev r (w, [])).bus.2.map Transfer.request =
      [Request.transmit dev [r &&& 0xFF] 100, Request.receive dev 2 100] ∧
    (AMS5600_WrByte (logged hal) dev r v (w, [])).bus.2.map Transfer.request =
      [Request.transmit dev [r &&& 0xFF, v &&& 0xFF] 100] ∧
    (AMS5600_WrWord (logged hal) dev r v (w, [])).bus.2.map Transfer.request =
      [Request.transmit dev [r &&& 0xFF, (v >>> 8) &&& 0xFF, v &&& 0xFF] 100] := by
  refine ⟨?_, ?_, ?_, ?_⟩
  · rw [logged_RdByte]; rfl
  · rw [logged_RdWord]; rfl
  · rw [logged_WrByte]; rfl
  · rw [logged_WrWord]; rfl

/-! ## Magnet detection (C13) -/

/-- Value left in `*magStatus`, as a function of the status byte read. -/
theorem detectMagnet_value {σ : Type} (hal : I2C_HandleTypeDef σ) (w : σ) :
    (AMS5600_detectMagnet hal w).value =
      (if (AMS5600_RdByte hal _ams5600_Address _addr_status w).value &&& 0x20 ≠ 0 then 1
       else 0) := rfl

/-- C13: whatever status byte `s` a read of register 0x0B delivers, `AMS5600_detectMagnet`
outputs 1 if MD (0x20) is set in `s` and 0 otherwise; the output is 0 or 1 and is the same for
any two status bytes that agree on the bit MD. -/
theorem detectMagnet_decodes {σ : Type} (hal : I2C_HandleTypeDef σ) (w : σ) (s : Nat)
    (hs : (AMS5600_RdByte hal _ams5600_Address _addr_status w).value = s) :
    (s &&& 0x20 ≠ 0 → (AMS5600_detectMagnet hal w).value = 1) ∧
    (s &&& 0x20 = 0 → (AMS5600_detectMagnet hal w).value = 0) ∧
    (AMS5600_detectMagnet hal w).value ∈ [0, 1] ∧
    (∀ (τ : Type) (hal2 : I2C_HandleTypeDef τ) (w2 : τ),
      (AMS5600_RdByte hal2 _ams5600_Address _addr_status w2).value &&& 0x20 = s &&& 0x20 →
      (AMS5600_detectMagnet hal2 w2).value = (AMS5600_detectMagnet hal w).value) := by
  refine ⟨?_, ?_, ?_, ?_⟩
  · intro h; rw [detectMagnet_value, hs]; simp [h]
  · intro h; rw [detectMagnet_value, hs]; simp [h]
  · rw [detectMagnet_value]
    split_ifs <;> simp
  · intro τ hal2 w2 h
    rw [detectMagnet_value, detectMagnet_value, hs, h]

/-- Instance of C13 on the mocked device with status byte 0x27 (MD set, other bits set). -/
theorem detectMagnet_decodes_witness :
    (AMS5600_RdByte mockHAL _ams5600_Address _addr_status
        (Mock.ok (regsOf [(0x0b, 0x27)]))).value = 0x27 ∧
    (AMS5600_detectMagnet mockHAL (Mock.ok (regsOf [(0x0b, 0x27)]))).value = 1 :=
  ⟨by decide,
   (detectMagnet_decodes mockHAL (Mock.ok (regsOf [(0x0b, 0x27)])) 0x27 (by decide)).1
     (by decide)⟩

/-! ## Agreement of the magnet checks (C14) -/

theorem detectMagnet_zero_iff {σ : Type} (hal : I2C_HandleTypeDef σ) (w : σ) :
    (AMS5600_detectMagnet hal w).value = 0 ↔
      (AMS5600_RdByte hal _ams5600_Address _addr_status w).value &&& 0x20 = 0 := by
  rw [detectMagnet_value]
  split_ifs with h <;> simp_all

theorem getMagnetStrength_zero_iff {σ : Type} (hal : I2C_HandleTypeDef σ) (w : σ) :
    (AMS5600_getMagnetStrength hal w).value = 0 ↔
      (AMS5600_RdByte hal _ams5600_Address _addr_status w).value &&& 0x20 = 0 := by
  rw [getMagnetStrength_value]
  simp only []
  split_ifs <;> simp_all

theorem burnAngle_minus_one_iff {σ : Type} (hal : I2C_HandleTypeDef σ) (w : σ) :
    (AMS5600_burnAngle hal w).value = -1 ↔
      (AMS5600_RdByte hal _ams5600_Address _addr_status
        (AMS5600_getMaxAngle hal (AMS5600_getEndPosition hal
          (AMS5600_getStartPosition hal w).bus).bus).bus).value &&& 0x20 = 0 := by
  rw [burnAngle_value]
  simp only []
  split_ifs <;> simp_all

theorem mock_status_byte (m : Mock) :
    (AMS5600_RdByte mockHAL _ams5600_Address _addr_status m).value = m.regs 0x0b % 256 := rfl

/-- C14: on any bus, `AMS5600_detectMagnet` outputs 0 if and only if
`AMS5600_getMagnetStrength`, reading the same status byte, outputs 0.  On a device whose status
register holds the byte `s`, and whatever statuses the transfers return, each of them outputs 0
exactly when MD (0x20) is clear in `s`, and `AMS5600_burnAngle` yields the result code -1 if and
only if `AMS5600_getMagnetStrength` outputs 0. -/
theorem magnet_checks_agree {σ : Type} (hal : I2C_HandleTypeDef σ) (w : σ)
    (regs : Nat → Nat) (ptr : Nat) (script : List Nat) (s : Nat)
    (hs : regs 0x0b = s) (hbyte : s < 256) :
    ((AMS5600_detectMagnet hal w).value = 0 ↔ (AMS5600_getMagnetStrength hal w).value = 0) ∧
    ((AMS5600_detectMagnet mockHAL ⟨regs, ptr, script⟩).value = 0 ↔ s &&& 0x20 = 0) ∧
    ((AMS5600_getMagnetStrength mockHAL ⟨regs, ptr, script⟩).value = 0 ↔ s &&& 0x20 = 0) ∧
    ((AMS5600_detectMagnet mockHAL ⟨regs, ptr, script⟩).value = 0 ↔
      (AMS5600_getMagnetStrength mockHAL ⟨regs, ptr, script⟩).value = 0) ∧
    ((AMS5600_burnAngle mockHAL ⟨regs, ptr, script⟩).value = -1 ↔
      (AMS5600_getMagnetStrength mockHAL ⟨regs, ptr, script⟩).value = 0) := by
  subst hs
  have e : ∀ m : Mock, m.regs = regs →
      (AMS5600_RdByte mockHAL _ams5600_Address _addr_status m).value = regs 0x0b := by
    intro m hm
    rw [mock_status_byte, hm, Nat.mod_eq_of_lt hbyte]
  refine ⟨?_, ?_, ?_, ?_, ?_⟩
  · rw [detectMagnet_zero_iff, getMagnetStrength_zero_iff]
  · rw [detectMagnet_zero_iff, e _ rfl]
  · rw [getMagnetStrength_zero_iff, e _ rfl]
  · rw [detectMagnet_zero_iff, getMagnetStrength_zero_iff]
  · rw [burnAngle_minus_one_iff, getMagnetStrength_zero_iff, e _ rfl, e _ rfl]

/-- Instance of C14 on the mocked device with status byte 0x18 (MD clear, ML and MH set) and a
failing transfer. -/
theorem magnet_checks_agree_witness :
    (AMS5600_getMagnetStrength mockHAL ⟨regsOf [(0x0b, 0x18), (0x01, 1)], 0, [0, 1]⟩).value = 0 ∧
    (AMS5600_detectMagnet mockHAL ⟨regsOf [(0x0b, 0x18), (0x01, 1)], 0, [0, 1]⟩).value = 0 ∧
    (AMS5600_burnAngle mockHAL ⟨regsOf [(0x0b, 0x18), (0x01, 1)], 0, [0, 1]⟩).value = -1 :=
  have h := magnet_checks_agree mockHAL (Mock.ok (regsOf []))
    (regsOf [(0x0b, 0x18), (0x01, 1)]) 0 [0, 1] 0x18 (by decide) (by decide)
  ⟨h.2.2.1.mpr (by decide), h.2.1.mpr (by decide), h.2.2.2.2.mpr (h.2.2.1.mpr (by decide))⟩

end AMS5600
